import Mathlib

/-!
A verification development for the Home Assistant configuration
reference validator (`tools/reference_validator.py`).

The Python module is shallowly embedded below.  Conventions used
throughout:

* Parsed YAML documents become the inductive `Yaml` type.  Every scalar
  that is neither a string nor `null` (numbers, booleans) is collapsed
  into the single constructor `Yaml.other`: the validator only ever
  branches on `isinstance(x, dict) / (x, list) / (x, str)` and on
  `x is None`, so all remaining scalars are observationally identical.
* Python `dict`s become association lists built with `dictInsert`
  (insert-or-overwrite), preserving insertion order like CPython dicts.
* Python `set`s become duplicate-free lists in first-insertion order.
  CPython iterates sets in a hash-dependent order; no claim settled here
  depends on the relative order of two distinct set elements.
* File-system access is abstracted into an `FS` record holding, for each
  file the validator may open, the outcome of opening-and-parsing it
  (`none` = file absent, `Except.error e` = the parse raised with
  message `e`, `Except.ok y` = parsed document).  All `try/except`
  blocks in the source funnel every exception into one handler, which is
  what the `Except.error` case models.
* The mutable `ReferenceValidator` object becomes an explicit `Session`
  state (finding lists plus the lazy registry caches), threaded through
  each embedded method.
* Message strings follow the source f-strings, with two elisions noted
  at their definitions: the absolute file-system path prefixes and the
  exception text interpolations are represented by the data available in
  the model.  The single-quote character used by the source messages is
  produced with `Char.ofNat 39`.
-/

namespace HARefValidator

/-! ## Basic character and string helpers -/

/-- The single-quote character `'` used by the source's f-string messages. -/
def sqChar : Char := Char.ofNat 39

/-- The single-quote as a one-character string. -/
def sqStr : String := String.singleton sqChar

/-- Wrap a string in single quotes, as the source messages do. -/
def quoted (t : String) : String := sqStr ++ t ++ sqStr

/-- Opening brace character (written via its code point). -/
def lbraceChar : Char := Char.ofNat 123

/-- Closing brace character (written via its code point). -/
def rbraceChar : Char := Char.ofNat 125

/-- Newline character. -/
def nlChar : Char := Char.ofNat 10

/-- Does the character list `needle` occur as a contiguous sublist of
`hay`?  This is the `in` operator on Python strings. -/
def listContainsSub (needle hay : List Char) : Bool :=
  match hay with
  | [] => needle.isEmpty
  | _ :: rest => needle.isPrefixOf hay || listContainsSub needle rest

/-- `in` on Python strings, lifted to `String`. -/
def strContainsSub (hay needle : String) : Bool :=
  listContainsSub needle.toList hay.toList

/-- `s.startswith(pre)` (kept on character lists so that terms reduce). -/
def pyStartsWith (s pre : String) : Bool :=
  pre.toList.isPrefixOf s.toList

/-- `c in s` for a single character. -/
def strContainsChar (s : String) (c : Char) : Bool :=
  s.toList.contains c

/-! ## Python `set` modelled as a duplicate-free list -/

/-- `s.add(x)`: append `x` if it is not already present. -/
def setAdd (l : List String) (x : String) : List String :=
  if x ∈ l then l else l ++ [x]

/-- `s.update(other)`: add every element of `other` in order. -/
def setUnion (l other : List String) : List String :=
  other.foldl setAdd l

/-! ## Python `dict` modelled as an insertion-ordered association list -/

/-- Lookup (first binding; `dictInsert` keeps keys unique). -/
def dictLookup (d : List (String × α)) (k : String) : Option α :=
  match d with
  | [] => none
  | (k', v) :: rest => if k' == k then some v else dictLookup rest k

/-- `k in d` on a Python dict. -/
def dictContains (d : List (String × α)) (k : String) : Bool :=
  (dictLookup d k).isSome

/-- `d[k] = v`: overwrite in place, or append a new binding. -/
def dictInsert (k : String) (v : α) (d : List (String × α)) : List (String × α) :=
  match d with
  | [] => [(k, v)]
  | (k', v') :: rest =>
      if k' == k then (k, v) :: rest else (k', v') :: dictInsert k v rest

/-- `d.values()` in insertion order. -/
def dictValues (d : List (String × α)) : List α := d.map Prod.snd

/-- `d.keys()` in insertion order. -/
def dictKeys (d : List (String × α)) : List String := d.map Prod.fst

/-! ## Python `str.split` helpers -/

/-- `value.split(sep)` on character lists (Python semantics for a
one-character separator: always returns `count + 1` pieces). -/
def splitOnCharL (sep : Char) : List Char → List (List Char)
  | [] => [[]]
  | c :: cs =>
      if c == sep then [] :: splitOnCharL sep cs
      else
        match splitOnCharL sep cs with
        | [] => [[c]]
        | h :: t => (c :: h) :: t

/-- `entity_id.split(".")[0]`: the prefix before the first dot (the whole
string when there is no dot). -/
def domainOf (s : String) : String :=
  String.mk (s.toList.takeWhile (fun c => c != '.'))

/-- `service.split(".", 1)`: `some (domain, action)` when the string
contains a dot, `none` otherwise (in which case the source `continue`s,
since the two-element check fails). -/
def splitDomainAction (s : String) : Option (String × String) :=
  let l := s.toList
  match l.dropWhile (fun c => c != '.') with
  | [] => none
  | _ :: rest => some (String.mk (l.takeWhile (fun c => c != '.')), String.mk rest)

/-! ## Candidate Classifier (`is_uuid_format`, `is_template`,
`should_skip_entity_validation`, `is_builtin_entity`) -/

/-- A lowercase hexadecimal digit, the character class `[a-f0-9]`. -/
def isLowerHex (c : Char) : Bool :=
  c.isDigit || ('a' ≤ c && c ≤ 'f')

/-- Matcher for `re.match(r"^[a-f0-9]{32}$", s)`: consume exactly `n`
hex digits, then `$`, which in Python also matches just before one
trailing newline at the very end of the string. -/
def hexRunDollar : Nat → List Char → Bool
  | 0, rest => rest.isEmpty || rest == [nlChar]
  | _ + 1, [] => false
  | n + 1, c :: cs => isLowerHex c && hexRunDollar n cs

/-- `is_uuid_format`: `re.match(r"^[a-f0-9]{32}$", value)`. -/
def isUuidFormat (s : String) : Bool :=
  hexRunDollar 32 s.toList

/-- Helper for `is_template`: is there a `}}` occurring before any
newline in the given suffix?  (`.` in the pattern does not match `\n`.) -/
def hasCloseNoNewline : List Char → Bool
  | [] => false
  | c :: rest =>
      if c == nlChar then false
      else if c == rbraceChar && rest.head? == some rbraceChar then true
      else hasCloseNoNewline rest

/-- `is_template`: `re.search(r"\x7b\x7b.*?\x7d\x7d", value)` — an
opening `\x7b\x7b` followed by a closing `\x7d\x7d` with no newline
strictly between them. -/
def isTemplate (s : String) : Bool :=
  scan s.toList
where
  scan : List Char → Bool
    | [] => false
    | c :: rest =>
        if c == lbraceChar && rest.head? == some lbraceChar then
          hasCloseNoNewline rest.tail || scan rest
        else scan rest

/-- `SPECIAL_KEYWORDS = {"all", "none"}` membership. -/
def isSpecialKeyword (s : String) : Bool :=
  s == "all" || s == "none"

/-- `should_skip_entity_validation`. -/
def shouldSkipEntityValidation (v : String) : Bool :=
  pyStartsWith v "!" || isUuidFormat v || isTemplate v || isSpecialKeyword v

/-- `BUILTIN_ENTITIES = {"sun.sun", "zone.home"}` membership. -/
def isBuiltinEntityName (s : String) : Bool :=
  s == "sun.sun" || s == "zone.home"

/-- `BUILTIN_DOMAINS = {"sun"}` membership. -/
def isBuiltinDomain (s : String) : Bool :=
  s == "sun"

/-- `is_builtin_entity`. -/
def isBuiltinEntity (e : String) : Bool :=
  if isBuiltinEntityName e then true
  else if strContainsChar e '.' then isBuiltinDomain (domainOf e)
  else false

/-! ## Parsed configuration trees

`Yaml.other` stands for every scalar that is neither a string nor
`None`: the validator only distinguishes dict / list / str / None.
Mappings and sequences are a mutual family (`YDict`, `YSeq`) rather
than nested `List`s so that every traversal below is plain structural
recursion and therefore computes by kernel reduction. -/

mutual

inductive Yaml where
  | str (s : String)
  | map (kvs : YDict)
  | seq (xs : YSeq)
  | null
  | other

/-- An insertion-ordered string-keyed mapping of `Yaml` values. -/
inductive YDict where
  | nil
  | cons (k : String) (v : Yaml) (rest : YDict)

/-- A sequence of `Yaml` values. -/
inductive YSeq where
  | nil
  | cons (v : Yaml) (rest : YSeq)

end

/-- Convenience constructor for dictionary literals. -/
def YDict.ofList : List (String × Yaml) → YDict
  | [] => .nil
  | (k, v) :: rest => .cons k v (YDict.ofList rest)

/-- Convenience constructor for sequence literals. -/
def YSeq.ofList : List Yaml → YSeq
  | [] => .nil
  | v :: rest => .cons v (YSeq.ofList rest)

/-- A mapping node from a list of pairs. -/
def ymap (l : List (String × Yaml)) : Yaml := Yaml.map (YDict.ofList l)

/-- A sequence node from a list of values. -/
def yseq (l : List Yaml) : Yaml := Yaml.seq (YSeq.ofList l)

/-! ## Expression Reference Scanner (`extract_entities_from_template`)

Each regex in the source's `patterns` list is rendered as a matcher
`List Char → Option (capture × rest)` for a match attempt anchored at
the head of the list, and `scanAll` replays `re.findall`: try each
position left to right, and on success resume after the match.  The
fuel argument (instantiated with the input length) only serves
termination; each step consumes at least one character. -/

/-- `re.findall` driver: at each position try `m`; on a match, record
the capture and resume after the match, otherwise slide one character. -/
def scanAll (m : List Char → Option (List Char × List Char)) :
    Nat → List Char → List (List Char)
  | 0, _ => []
  | _ + 1, [] => []
  | n + 1, c :: cs =>
      match m (c :: cs) with
      | some (cap, rest) => cap :: scanAll m n rest
      | none => scanAll m n cs

/-- Matcher for the quoted call-form patterns
(`states('…')`, `is_state('…'`, `state_attr('…'` and their
double-quoted versions): literal prefix `pre`, then a non-empty capture
of characters other than the quote `qc`, then the closing quote, then a
closing parenthesis when `needParen` is set (only the `states(…)`
patterns require it).  A greedy `[^q]+` cannot extend past the quote, so
this is exactly the regex's match at this position. -/
def matchQuotedAt (pre : List Char) (qc : Char) (needParen : Bool)
    (s : List Char) : Option (List Char × List Char) :=
  if pre.isPrefixOf s then
    let rest := s.drop pre.length
    let cap := rest.takeWhile (fun c => c != qc)
    match rest.dropWhile (fun c => c != qc) with
    | [] => none
    | _ :: afterQuote =>
        if cap.isEmpty then none
        else if needParen then
          match afterQuote with
          | ')' :: tail => some (cap, tail)
          | _ => none
        else some (cap, afterQuote)
  else none

/-- The character class `[a-zA-Z0-9_]`. -/
def isIdentChar (c : Char) : Bool :=
  c.isAlpha || c.isDigit || c == '_'

/-- The character class `[a-zA-Z_]`. -/
def isIdentStart (c : Char) : Bool :=
  c.isAlpha || c == '_'

/-- Matcher for
`states\.([a-zA-Z_][a-zA-Z0-9_]*\.[a-zA-Z_][a-zA-Z0-9_]*)`:
literal `states.`, then two maximal identifier segments joined by a dot.
Greediness cannot backtrack here: a shorter identifier run would leave
an identifier character where the dot or the match end is required. -/
def matchDottedAt (s : List Char) : Option (List Char × List Char) :=
  let pre := "states.".toList
  if pre.isPrefixOf s then
    let rest := s.drop pre.length
    let seg1 := rest.takeWhile isIdentChar
    match seg1.head? with
    | none => none
    | some c1 =>
        if isIdentStart c1 then
          match rest.dropWhile isIdentChar with
          | '.' :: rest2 =>
              let seg2 := rest2.takeWhile isIdentChar
              match seg2.head? with
              | none => none
              | some c2 =>
                  if isIdentStart c2 then
                    some (seg1 ++ '.' :: seg2, rest2.dropWhile isIdentChar)
                  else none
          | _ => none
        else none
  else none

/-- The seven matchers, in the order of the source's `patterns` list. -/
def entityPatternMatchers : List (List Char → Option (List Char × List Char)) :=
  let dq : Char := '"'
  [ matchQuotedAt ("states(".toList ++ [sqChar]) sqChar true
  , matchQuotedAt ("states(".toList ++ [dq]) dq true
  , matchDottedAt
  , matchQuotedAt ("is_state(".toList ++ [sqChar]) sqChar false
  , matchQuotedAt ("is_state(".toList ++ [dq]) dq false
  , matchQuotedAt ("state_attr(".toList ++ [sqChar]) sqChar false
  , matchQuotedAt ("state_attr(".toList ++ [dq]) dq false ]

/-- The per-match filter in `extract_entities_from_template`:
`"." in match and len(match.split(".")) == 2`. -/
def entityTokenFilter (m : List Char) : Bool :=
  m.contains '.' && (splitOnCharL '.' m).length == 2

/-- `extract_entities_from_template`: run every pattern over the whole
template, filter each match, and accumulate a set. -/
def extractEntitiesFromTemplate (template : String) : List String :=
  let cl := template.toList
  entityPatternMatchers.foldl
    (fun acc m =>
      (scanAll m cl.length cl).foldl
        (fun acc cap =>
          if entityTokenFilter cap then setAdd acc (String.mk cap) else acc)
        acc)
    []

/-! ## Reference Extractor: the recursive walks

Each Python extractor iterates a dict's items in order, mutating one
accumulated set; the `path` argument only builds diagnostic strings that
are never emitted, so it is dropped here.  Recursing into a plain string
returns the empty set in the source; those calls are inlined as `[]`.
The body of each `for key, value in data.items()` loop appears inline in
the `…Dict` function of the corresponding mutual block. -/

/-- The entity-key list-value loop: collect string elements that survive
`should_skip_entity_validation`, into an accumulated set. -/
def entityListCandidates (acc : List String) : YSeq → List String
  | .nil => acc
  | .cons (Yaml.str es) rest =>
      entityListCandidates
        (if shouldSkipEntityValidation es then acc else setAdd acc es) rest
  | .cons _ rest => entityListCandidates acc rest

/-- The device/area-key list-value loop: collect string elements that do
not start with `!`. -/
def bangFilteredCandidates (acc : List String) : YSeq → List String
  | .nil => acc
  | .cons (Yaml.str es) rest =>
      bangFilteredCandidates
        (if pyStartsWith es "!" then acc else setAdd acc es) rest
  | .cons _ rest => bangFilteredCandidates acc rest

/-! ### `extract_entity_references` -/

mutual

def extractEntityRefs : Yaml → List String
  | Yaml.map kvs => entityRefsDict kvs
  | Yaml.seq xs => entityRefsSeq xs
  | _ => []

def entityRefsDict : YDict → List String
  | .nil => []
  | .cons k v rest =>
      let contrib :=
        if k == "entity_id" || k == "entity_ids" || k == "entities" then
          match v with
          | Yaml.str sv => if shouldSkipEntityValidation sv then [] else [sv]
          | Yaml.seq xs => entityListCandidates [] xs
          | _ => []
        else if k == "device_id" || k == "device_ids" then []
        else if k == "area_id" || k == "area_ids" then []
        else
          -- the source's `data`-key branch and its final recursive branch
          -- both call `extract_entity_references(value)`, so they merge here
          match v with
          | Yaml.str sv =>
              if strContainsSub sv "state_attr(" || strContainsSub sv "states(" ||
                  strContainsSub sv "is_state(" then
                extractEntitiesFromTemplate sv
              else []
          | w => extractEntityRefs w
      setUnion contrib (entityRefsDict rest)

def entityRefsSeq : YSeq → List String
  | .nil => []
  | .cons x rest => setUnion (extractEntityRefs x) (entityRefsSeq rest)

end

/-! ### `extract_device_references` -/

mutual

def extractDeviceRefs : Yaml → List String
  | Yaml.map kvs => deviceRefsDict kvs
  | Yaml.seq xs => deviceRefsSeq xs
  | _ => []

def deviceRefsDict : YDict → List String
  | .nil => []
  | .cons k v rest =>
      let contrib :=
        if k == "device_id" || k == "device_ids" then
          match v with
          | Yaml.str sv => if pyStartsWith sv "!" then [] else [sv]
          | Yaml.seq xs => bangFilteredCandidates [] xs
          | _ => []
        else
          match v with
          | w => extractDeviceRefs w
      setUnion contrib (deviceRefsDict rest)

def deviceRefsSeq : YSeq → List String
  | .nil => []
  | .cons x rest => setUnion (extractDeviceRefs x) (deviceRefsSeq rest)

end

/-! ### `extract_area_references` -/

mutual

def extractAreaRefs : Yaml → List String
  | Yaml.map kvs => areaRefsDict kvs
  | Yaml.seq xs => areaRefsSeq xs
  | _ => []

def areaRefsDict : YDict → List String
  | .nil => []
  | .cons k v rest =>
      let contrib :=
        if k == "area_id" || k == "area_ids" then
          match v with
          | Yaml.str sv => if pyStartsWith sv "!" then [] else [sv]
          | Yaml.seq xs => bangFilteredCandidates [] xs
          | _ => []
        else
          match v with
          | w => extractAreaRefs w
      setUnion contrib (areaRefsDict rest)

def areaRefsSeq : YSeq → List String
  | .nil => []
  | .cons x rest => setUnion (extractAreaRefs x) (areaRefsSeq rest)

end

/-! ### `extract_entity_registry_ids` -/

mutual

def extractRegistryIds : Yaml → List String
  | Yaml.map kvs => registryIdsDict kvs
  | Yaml.seq xs => registryIdsSeq xs
  | _ => []

def registryIdsDict : YDict → List String
  | .nil => []
  | .cons k v rest =>
      let contrib :=
        match v with
        | Yaml.str sv =>
            if k == "entity_id" then
              if isUuidFormat sv then [sv] else []
            else []
        | w => extractRegistryIds w
      setUnion contrib (registryIdsDict rest)

def registryIdsSeq : YSeq → List String
  | .nil => []
  | .cons x rest => setUnion (extractRegistryIds x) (registryIdsSeq rest)

end

/-! ### `extract_service_calls` -/

mutual

def extractServiceCalls : Yaml → List String
  | Yaml.map kvs => serviceCallsDict kvs
  | Yaml.seq xs => serviceCallsSeq xs
  | _ => []

def serviceCallsDict : YDict → List String
  | .nil => []
  | .cons k v rest =>
      let contrib :=
        match v with
        | Yaml.str sv =>
            if k == "service" then
              if !pyStartsWith sv "!" && !isTemplate sv then
                if strContainsChar sv '.' then [sv] else []
              else []
            else if k == "action" then
              if strContainsChar sv '.' && !pyStartsWith sv "!" then [sv] else []
            else []
        | w => extractServiceCalls w
      setUnion contrib (serviceCallsDict rest)

def serviceCallsSeq : YSeq → List String
  | .nil => []
  | .cons x rest => setUnion (extractServiceCalls x) (serviceCallsSeq rest)

end

/-! ## Registries, file system and session state -/

/-- One record of `data.entities` in `core.entity_registry`.  The `id`
field is the opaque registry id used by `get_entity_registry_id_mapping`
(absent when the JSON record has no `"id"` key). -/
structure EntityRecord where
  entity_id : String
  id : Option String
  platform : Option String
  disabled_by : Option String
  area_id : Option String

/-- One record of `data.devices` in `core.device_registry`. -/
structure DeviceRecord where
  id : String
  name : String
  area_id : Option String

/-- One record of `data.areas` in `core.area_registry`. -/
structure AreaRecord where
  id : String
  name : String

/-- The file-system as seen by one validation run.  Each field holds the
outcome of opening-and-parsing the corresponding file: `none` means the
file does not exist, `Except.error e` that reading/parsing raised (the
source catches every exception in one handler), `Except.ok` the parsed
content.  For the registries, `Except.ok recs` additionally covers the
record-extraction step (`data.get("data", {}).get(…)` plus the key
accesses of the dict comprehension), whose failures also land in the
same `except` block.

`builtinServiceDomains` is the set computed by `ValidationConfig`:
either the `builtin_service_domains` list of `validation_config.yaml`
or `defaultBuiltinServiceDomains` when that file is absent or invalid. -/
structure FS where
  entityRegistry : Option (Except String (List EntityRecord))
  deviceRegistry : Option (Except String (List DeviceRecord))
  areaRegistry : Option (Except String (List AreaRecord))
  scriptsFile : Option (Except String Yaml)
  scenesFile : Option (Except String Yaml)
  blueprintFiles : List (String × Except String Yaml)
  configFiles : List (String × Except String Yaml)
  configDirExists : Bool
  builtinServiceDomains : List String

/-- `ValidationConfig._use_defaults`. -/
def defaultBuiltinServiceDomains : List String :=
  ["homeassistant", "automation", "script", "scene",
   "input_boolean", "input_number", "input_select", "input_text",
   "light", "switch", "cover", "fan", "climate", "media_player",
   "camera", "lock", "vacuum", "notify", "persistent_notification"]

/-- `DYNAMIC_SERVICE_DOMAINS`. -/
def dynamicServiceDomains : List String :=
  ["notify", "tts", "rest_command", "shell_command", "pyscript"]

/-- The mutable state of one `ReferenceValidator` instance: the finding
lists and the lazy caches (`_entities` … `_blueprints`). -/
structure Session where
  errors : List String
  warnings : List String
  entitiesCache : Option (List (String × EntityRecord))
  devicesCache : Option (List (String × DeviceRecord))
  areasCache : Option (List (String × AreaRecord))
  scriptsCache : Option (List String)
  scenesCache : Option (List String)
  blueprintsCache : Option (List (String × Yaml))

/-- A freshly constructed `ReferenceValidator`. -/
def initSession : Session :=
  ⟨[], [], none, none, none, none, none, none⟩

/-- `self.errors.append(m)`. -/
def addError (s : Session) (m : String) : Session :=
  { s with errors := s.errors ++ [m] }

/-- `self.warnings.append(m)`. -/
def addWarning (s : Session) (m : String) : Session :=
  { s with warnings := s.warnings ++ [m] }

/-! ### Finding messages

These mirror the source f-strings.  The absolute path interpolations
(`{registry_file}`, `{self.config_dir}`, the directory prefix of
`{file_path}`) are rendered from the information present in the model:
the fixed storage-relative path, respectively the plain file name. -/

def entityRegistryNotFoundMsg : String :=
  "Entity registry not found: .storage/core.entity_registry"

def entityRegistryLoadFailMsg (e : String) : String :=
  "Failed to load entity registry: " ++ e

def deviceRegistryNotFoundMsg : String :=
  "Device registry not found: .storage/core.device_registry"

def deviceRegistryLoadFailMsg (e : String) : String :=
  "Failed to load device registry: " ++ e

def areaRegistryNotFoundMsg : String :=
  "Area registry not found: .storage/core.area_registry"

def areaRegistryLoadFailMsg (e : String) : String :=
  "Failed to load area registry: " ++ e

def yamlLoadFailMsg (file e : String) : String :=
  file ++ ": Failed to load YAML - " ++ e

def unknownEntityMsg (file eid : String) : String :=
  file ++ ": Unknown entity " ++ quoted eid

def disabledEntityMsg (file eid : String) : String :=
  file ++ ": References disabled entity " ++ quoted eid

def unknownRegistryIdMsg (file rid : String) : String :=
  file ++ ": Unknown entity registry ID " ++ quoted rid

def registryIdDisabledMsg (file rid eid : String) : String :=
  file ++ ": Entity registry ID " ++ quoted rid ++
    " references disabled entity " ++ quoted eid

def unknownDeviceMsg (file did : String) : String :=
  file ++ ": Unknown device " ++ quoted did

def unknownAreaMsg (file aid : String) : String :=
  file ++ ": Unknown area " ++ quoted aid

def unknownDomainMsg (file dom svc : String) : String :=
  file ++ ": Unknown service domain " ++ quoted dom ++
    " in service call " ++ quoted svc

def scriptNotFoundMsg (file action : String) : String :=
  file ++ ": Service " ++ quoted ("script." ++ action) ++ " - script " ++
    quoted action ++ " not found in scripts.yaml"

def sceneNotFoundMsg (file action : String) : String :=
  file ++ ": Service " ++ quoted ("scene." ++ action) ++ " - scene " ++
    quoted action ++ " not found in scenes.yaml"

def blueprintNotFoundMsg (file : String) (index : Nat) (path : String) : String :=
  file ++ ": Automation " ++ toString index ++ " uses blueprint " ++
    quoted path ++ " which was not found locally"

def blueprintInputMsg (file aliasName iname : String) : String :=
  file ++ ": " ++ quoted aliasName ++ " - Blueprint input " ++ quoted iname ++
    " not provided (may use default)"

def configDirMissingMsg : String :=
  "Config directory config does not exist"

def noYamlFilesMsg : String :=
  "No YAML files found in config directory"

/-! ### Registry Store (`load_entity_registry` … `load_blueprints`) -/

/-- The dict comprehension `{entity["entity_id"]: entity for …}`. -/
def buildEntityDict (recs : List EntityRecord) : List (String × EntityRecord) :=
  recs.foldl (fun d r => dictInsert r.entity_id r d) []

/-- The dict comprehension `{device["id"]: device for …}`. -/
def buildDeviceDict (recs : List DeviceRecord) : List (String × DeviceRecord) :=
  recs.foldl (fun d r => dictInsert r.id r d) []

/-- The dict comprehension `{area["id"]: area for …}`. -/
def buildAreaDict (recs : List AreaRecord) : List (String × AreaRecord) :=
  recs.foldl (fun d r => dictInsert r.id r d) []

/-- `load_entity_registry`.  On a missing or unparsable file an error is
recorded and `{}` returned without filling the cache (the source leaves
`self._entities = None` on those paths). -/
def loadEntityRegistry (fs : FS) (s : Session) :
    List (String × EntityRecord) × Session :=
  match s.entitiesCache with
  | some d => (d, s)
  | none =>
      match fs.entityRegistry with
      | none => ([], addError s entityRegistryNotFoundMsg)
      | some (Except.error e) => ([], addError s (entityRegistryLoadFailMsg e))
      | some (Except.ok recs) =>
          let d := buildEntityDict recs
          (d, { s with entitiesCache := some d })

/-- `load_device_registry`. -/
def loadDeviceRegistry (fs : FS) (s : Session) :
    List (String × DeviceRecord) × Session :=
  match s.devicesCache with
  | some d => (d, s)
  | none =>
      match fs.deviceRegistry with
      | none => ([], addError s deviceRegistryNotFoundMsg)
      | some (Except.error e) => ([], addError s (deviceRegistryLoadFailMsg e))
      | some (Except.ok recs) =>
          let d := buildDeviceDict recs
          (d, { s with devicesCache := some d })

/-- `load_area_registry`: identical shape, but failures are warnings. -/
def loadAreaRegistry (fs : FS) (s : Session) :
    List (String × AreaRecord) × Session :=
  match s.areasCache with
  | some d => (d, s)
  | none =>
      match fs.areaRegistry with
      | none => ([], addWarning s areaRegistryNotFoundMsg)
      | some (Except.error e) => ([], addWarning s (areaRegistryLoadFailMsg e))
      | some (Except.ok recs) =>
          let d := buildAreaDict recs
          (d, { s with areasCache := some d })

/-- Keys of a `YDict`, for `set(data.keys())` in `load_scripts`. -/
def ydictKeys : YDict → List String
  | .nil => []
  | .cons k _ rest => k :: ydictKeys rest

/-- Lookup in a `YDict` (`dict.get` on a parsed mapping). -/
def ydictLookup : YDict → String → Option Yaml
  | .nil, _ => none
  | .cons k v rest, key => if k == key then some v else ydictLookup rest key

/-- `key in parsed_mapping`. -/
def ydictHasKey (d : YDict) (k : String) : Bool :=
  (ydictLookup d k).isSome

/-- `load_scripts`.  `self._scripts = set()` is assigned before any file
access, so every outcome — including a missing or invalid file — fills
the cache. -/
def loadScripts (fs : FS) (s : Session) : List String × Session :=
  match s.scriptsCache with
  | some sc => (sc, s)
  | none =>
      let names :=
        match fs.scriptsFile with
        | some (Except.ok (Yaml.map kvs)) => ydictKeys kvs
        | _ => []
      (names, { s with scriptsCache := some names })

/-- The `for scene in data` loop of `load_scenes`: collect `scene["id"]`
of every mapping item that has an `id` key.  Only string ids are kept:
a non-string id can never compare equal to the string `action` it is
later tested against. -/
def collectSceneIds (acc : List String) : YSeq → List String
  | .nil => acc
  | .cons (Yaml.map kvs) rest =>
      collectSceneIds
        (match ydictLookup kvs "id" with
         | some (Yaml.str i) => setAdd acc i
         | _ => acc) rest
  | .cons _ rest => collectSceneIds acc rest

/-- `load_scenes`; the same always-cache behaviour as `load_scripts`. -/
def loadScenes (fs : FS) (s : Session) : List String × Session :=
  match s.scenesCache with
  | some sc => (sc, s)
  | none =>
      let names :=
        match fs.scenesFile with
        | some (Except.ok (Yaml.seq xs)) => collectSceneIds [] xs
        | _ => []
      (names, { s with scenesCache := some names })

/-- `load_blueprints`: index every parsed blueprint file whose document
is a mapping with a top-level `blueprint` key; unreadable files are
skipped. -/
def loadBlueprints (fs : FS) (s : Session) : List (String × Yaml) × Session :=
  match s.blueprintsCache with
  | some b => (b, s)
  | none =>
      let bps := fs.blueprintFiles.foldl
        (fun acc kv =>
          match kv.2 with
          | Except.ok (Yaml.map kvs) =>
              if ydictHasKey kvs "blueprint" then
                dictInsert kv.1 (Yaml.map kvs) acc
              else acc
          | _ => acc)
        []
      (bps, { s with blueprintsCache := some bps })

/-- `get_entity_registry_id_mapping`: the secondary index
`{entity_data["id"]: entity_data["entity_id"]}` over records carrying an
`id` field. -/
def getEntityRegistryIdMapping (fs : FS) (s : Session) :
    List (String × String) × Session :=
  let er := loadEntityRegistry fs s
  let mapping := (dictValues er.1).foldl
    (fun m r =>
      match r.id with
      | some i => dictInsert i r.entity_id m
      | none => m)
    []
  (mapping, er.2)

/-! ### Blueprint Resolver (`get_blueprint_inputs`,
`validate_blueprint_automation`, `validate_blueprints_in_file`) -/

/-- `get_blueprint_inputs`:
`blueprint_data.get("blueprint", {}).get("input", {})`.  A non-mapping
value under either key makes the source raise an uncaught
`AttributeError` / iteration error; such documents are outside the
modeled state space and rendered as the empty mapping here. -/
def getBlueprintInputs (blueprintData : Yaml) : YDict :=
  match blueprintData with
  | Yaml.map kvs =>
      match ydictLookup kvs "blueprint" with
      | some (Yaml.map bkvs) =>
          match ydictLookup bkvs "input" with
          | some (Yaml.map ikvs) => ikvs
          | _ => .nil
      | _ => .nil
  | _ => .nil

/-- Python's `name in value` for the `use_blueprint.input` value, which
is a mapping in well-formed automations but is whatever was parsed:
membership is key lookup on a dict, substring test on a string, element
equality on a list; on `None` or a number the source raises (uncaught),
modeled as `false`. -/
def inputsMember (declared : Yaml) (name : String) : Bool :=
  match declared with
  | Yaml.map kvs => ydictHasKey kvs name
  | Yaml.str sv => strContainsSub sv name
  | Yaml.seq xs => seqHasString xs name
  | _ => false
where
  seqHasString : YSeq → String → Bool
    | .nil, _ => false
    | .cons (Yaml.str e) rest, n => e == n || seqHasString rest n
    | .cons _ rest, n => seqHasString rest n

/-- `s.endswith(suffix)`. -/
def pyEndsWith (s suffix : String) : Bool :=
  suffix.toList.isSuffixOf s.toList

/-- The blueprint-matching loop of `validate_blueprint_automation`:
first indexed blueprint whose key is a suffix of the requested path or
vice versa. -/
def findMatchingBlueprint (blueprints : List (String × Yaml)) (path : String) :
    Option Yaml :=
  match blueprints with
  | [] => none
  | (key, data) :: rest =>
      if pyEndsWith path key || pyEndsWith key path then some data
      else findMatchingBlueprint rest path

/-- `is_optional` for one blueprint input:
`input_config.get("default") is not None or "default" in input_config`
for a mapping config; any other config counts as required. -/
def blueprintInputIsOptional (icfg : Yaml) : Bool :=
  match icfg with
  | Yaml.map m =>
      let hasDefault := ydictHasKey m "default"
      let defaultIsNotNone :=
        match ydictLookup m "default" with
        | some Yaml.null => false
        | some _ => true
        | none => false
      defaultIsNotNone || hasDefault
  | _ => false

/-- The `for input_name, input_config in blueprint_inputs.items()` loop
of `validate_blueprint_automation`: a missing non-optional input appends
one warning. -/
def checkBlueprintInputs (file aliasName : String) (schema : YDict)
    (declared : Yaml) (s : Session) : Session :=
  match schema with
  | .nil => s
  | .cons iname icfg rest =>
      let s' :=
        if !inputsMember declared iname && !blueprintInputIsOptional icfg then
          addWarning s (blueprintInputMsg file aliasName iname)
        else s
      checkBlueprintInputs file aliasName rest declared s'

/-- `automation.get("alias", f"Automation {index}")` as used for the
warning text; a non-string `alias` value is rendered by `str()` in the
source f-string and modeled by the positional default. -/
def blueprintAlias (automation : YDict) (index : Nat) : String :=
  match ydictLookup automation "alias" with
  | some (Yaml.str a) => a
  | _ => "Automation " ++ toString index

/-- `validate_blueprint_automation`.  The automation is the parsed
mapping of one automation entry.  A non-string `path` value raises
uncaught in the source and is outside the modeled state space.  The
function never sets
`all_valid` to `False`, so it always returns `true`. -/
def validateBlueprintAutomation (fs : FS) (automation : YDict)
    (file : String) (index : Nat) (s : Session) : Bool × Session :=
  match ydictLookup automation "use_blueprint" with
  | none => (true, s)
  | some useBlueprint =>
      match useBlueprint with
      | Yaml.map ub =>
          let blueprintPath :=
            match ydictLookup ub "path" with
            | some (Yaml.str p) => p
            | _ => ""
          let automationInputs :=
            match ydictLookup ub "input" with
            | some v => v
            | none => Yaml.map .nil
          if blueprintPath == "" || pyStartsWith blueprintPath "!" then (true, s)
          else
            let rBlueprints := loadBlueprints fs s
            match findMatchingBlueprint rBlueprints.1 blueprintPath with
            | none =>
                (true,
                 addWarning rBlueprints.2 (blueprintNotFoundMsg file index blueprintPath))
            | some blueprintData =>
                let blueprintInputs := getBlueprintInputs blueprintData
                (true, checkBlueprintInputs file (blueprintAlias automation index)
                  blueprintInputs automationInputs rBlueprints.2)
      | _ => (true, s)

/-- `validate_blueprints_in_file`: iterate an automations list,
validating every mapping entry that declares `use_blueprint`. -/
def validateBlueprintsInFile (fs : FS) (file : String) (data : Yaml)
    (s : Session) : Bool × Session :=
  match data with
  | Yaml.seq xs => go xs 0 s
  | _ => (true, s)
where
  go : YSeq → Nat → Session → Bool × Session
    | .nil, _, s => (true, s)
    | .cons item rest, i, s =>
        match item with
        | Yaml.map kvs =>
            if ydictHasKey kvs "use_blueprint" then
              let r1 := validateBlueprintAutomation fs kvs file i s
              let r2 := go rest (i + 1) r1.2
              (r1.1 && r2.1, r2.2)
            else go rest (i + 1) s
        | _ => go rest (i + 1) s

/-! ### Service-call validation (`validate_service_calls`) -/

/-- The entity-domain set `{entity_id.split(".")[0] for entity_id in
entities.keys()}` (used for membership only). -/
def entityDomainsOf (entities : List (String × EntityRecord)) : List String :=
  (dictKeys entities).foldl (fun acc k => setAdd acc (domainOf k)) []

/-- The body of the `for service in services` loop of
`validate_service_calls`. -/
def serviceCallStep (builtins scripts scenes entityDomains : List String)
    (file : String) (st : Session) (svc : String) : Session :=
  match splitDomainAction svc with
  | none => st
  | some (domain, action) =>
      if builtins.contains domain then
        if domain == "script" && !scripts.contains action then
          if action != "reload" && action != "turn_on" && action != "turn_off" then
            addWarning st (scriptNotFoundMsg file action)
          else st
        else if domain == "scene" && !scenes.contains action then
          if action != "reload" && action != "turn_on" then
            addWarning st (sceneNotFoundMsg file action)
          else st
        else st
      else if dynamicServiceDomains.contains domain then st
      else if entityDomains.contains domain then st
      else addWarning st (unknownDomainMsg file domain svc)

/-- `validate_service_calls`.  `all_valid` is never set to `False` in
the source, so the boolean is always `true`; only warnings are
appended by the loop, but the three lazy loads run first and may append
their own findings. -/
def validateServiceCalls (fs : FS) (services : List String) (file : String)
    (s : Session) : Bool × Session :=
  let rScripts := loadScripts fs s
  let rScenes := loadScenes fs rScripts.2
  let rEntities := loadEntityRegistry fs rScenes.2
  let s4 := services.foldl
    (serviceCallStep fs.builtinServiceDomains rScripts.1 rScenes.1
      (entityDomainsOf rEntities.1) file)
    rEntities.2
  (true, s4)

/-! ### Per-file validation (`validate_file_references`) and the session
driver (`validate_all`) -/

/-- The body of the entity loop of `validate_file_references`:
skip opaque-id and builtin candidates; an id present in the registry
passes silently, a missing one is looked up among the disabled records
(dead code, see C1) and otherwise is an unknown-entity error. -/
def entityCheckStep (entities : List (String × EntityRecord))
    (fileName : String) (acc : Bool × Session) (eid : String) : Bool × Session :=
  if isUuidFormat eid then acc
  else if isBuiltinEntity eid then acc
  else if dictContains entities eid then acc
  else
    let disabledEntities := (dictValues entities).foldl
      (fun m r =>
        if r.disabled_by.isSome then dictInsert r.entity_id r m else m)
      []
    if dictContains disabledEntities eid then
      (acc.1, addWarning acc.2 (disabledEntityMsg fileName eid))
    else (false, addError acc.2 (unknownEntityMsg fileName eid))

/-- The body of the registry-id loop of `validate_file_references`. -/
def registryIdCheckStep (entityIdMapping : List (String × String))
    (entities : List (String × EntityRecord)) (fileName : String)
    (acc : Bool × Session) (rid : String) : Bool × Session :=
  match dictLookup entityIdMapping rid with
  | none => (false, addError acc.2 (unknownRegistryIdMsg fileName rid))
  | some actualEntityId =>
      match dictLookup entities actualEntityId with
      | some entityData =>
          if entityData.disabled_by.isSome then
            (acc.1,
             addWarning acc.2 (registryIdDisabledMsg fileName rid actualEntityId))
          else acc
      | none => acc

/-- The body of the device loop of `validate_file_references`. -/
def deviceCheckStep (devices : List (String × DeviceRecord))
    (fileName : String) (acc : Bool × Session) (did : String) : Bool × Session :=
  if dictContains devices did then acc
  else (false, addError acc.2 (unknownDeviceMsg fileName did))

/-- The body of the area loop of `validate_file_references`. -/
def areaCheckStep (areas : List (String × AreaRecord)) (fileName : String)
    (st : Session) (aid : String) : Session :=
  if dictContains areas aid then st else addWarning st (unknownAreaMsg fileName aid)

/-- The body of `validate_file_references` after the `data is None`
check: extract the five candidate sets, load the registries, run the
membership checks, then service and blueprint validation. -/
def validateParsedFile (fs : FS) (fileName : String) (d : Yaml)
    (s : Session) : Bool × Session :=
  let entityRefs := extractEntityRefs d
  let deviceRefs := extractDeviceRefs d
  let areaRefs := extractAreaRefs d
  let registryIds := extractRegistryIds d
  let serviceCalls := extractServiceCalls d
  let rEnt := loadEntityRegistry fs s
  let rDev := loadDeviceRegistry fs rEnt.2
  let rArea := loadAreaRegistry fs rDev.2
  let rMap := getEntityRegistryIdMapping fs rArea.2
  let r5 := entityRefs.foldl (entityCheckStep rEnt.1 fileName) (true, rMap.2)
  let r6 := registryIds.foldl
    (registryIdCheckStep rMap.1 rEnt.1 fileName) r5
  let r7 := deviceRefs.foldl (deviceCheckStep rDev.1 fileName) r6
  let s8 := areaRefs.foldl (areaCheckStep rArea.1 fileName) r7.2
  let s9 := (validateServiceCalls fs serviceCalls fileName s8).2
  let s10 :=
    if fileName == "automations.yaml" then
      (validateBlueprintsInFile fs fileName d s9).2
    else s9
  (r7.1, s10)

/-- `validate_file_references`.  `parsed` is the outcome of
`yaml.load(open(file_path))`: an exception (unreadable or unparsable
file) short-circuits with one error. -/
def validateFileReferences (fs : FS) (fileName : String)
    (parsed : Except String Yaml) (s : Session) : Bool × Session :=
  if fileName == "secrets.yaml" then (true, s)
  else
    match parsed with
    | Except.error e => (false, addError s (yamlLoadFailMsg fileName e))
    | Except.ok Yaml.null => (true, s)
    | Except.ok d => validateParsedFile fs fileName d s

/-- `validate_all`: iterate every YAML file of the configuration
directory (glob order is the order of `FS.configFiles`). -/
def validateAll (fs : FS) (s : Session) : Bool × Session :=
  if !fs.configDirExists then (false, addError s configDirMissingMsg)
  else if fs.configFiles.isEmpty then (true, addWarning s noYamlFilesMsg)
  else
    fs.configFiles.foldl
      (fun acc f =>
        let r := validateFileReferences fs f.1 f.2 acc.2
        (acc.1 && r.1, r.2))
      (true, s)

/-! ## Basic lemmas about the set model -/

theorem mem_setAdd {l : List String} {x v : String} :
    v ∈ setAdd l x ↔ v ∈ l ∨ v = x := by
  by_cases h : x ∈ l
  · rw [setAdd, if_pos h]
    constructor
    · exact Or.inl
    · rintro (hv | rfl)
      · exact hv
      · exact h
  · simp [setAdd, if_neg h]

theorem mem_setUnion {v : String} :
    ∀ {other l : List String}, v ∈ setUnion l other ↔ v ∈ l ∨ v ∈ other := by
  intro other
  induction other with
  | nil => simp [setUnion]
  | cons x rest ih =>
      intro l
      have : setUnion l (x :: rest) = setUnion (setAdd l x) rest := rfl
      rw [this, ih, mem_setAdd]
      simp [or_assoc]

theorem nodup_setAdd {l : List String} {x : String} (h : l.Nodup) :
    (setAdd l x).Nodup := by
  by_cases hx : x ∈ l
  · rw [setAdd, if_pos hx]
    exact h
  · rw [setAdd, if_neg hx]
    refine List.Nodup.append h (List.nodup_singleton x) ?_
    intro a ha hax
    rw [List.mem_singleton] at hax
    exact hx (hax ▸ ha)

/-! ## C10 — `secrets.yaml` and empty documents -/

/-- C10: per-file validation returns `true` and appends no Finding for a
file named `secrets.yaml` whatever its contents (even an unreadable
one), and for any file that parses to the empty (`None`) document. -/
theorem c10_secrets_and_null_documents_yield_no_findings :
    (∀ (fs : FS) (parsed : Except String Yaml) (s : Session),
        validateFileReferences fs "secrets.yaml" parsed s = (true, s)) ∧
    (∀ (fs : FS) (name : String) (s : Session),
        validateFileReferences fs name (Except.ok Yaml.null) s = (true, s)) := by
  refine ⟨fun fs parsed s => rfl, fun fs name s => ?_⟩
  by_cases h : name == "secrets.yaml"
  · simp [validateFileReferences, h]
  · simp [validateFileReferences, h]

/-! ## C6 — the Registry Store contract -/

/-- C6: a missing or unparsable entity/device registry records an error
Finding and yields the empty map (without filling the cache); the area
registry records a warning instead; a successful load fills the cache
and records nothing; and a cached load returns the cached map unchanged
whatever the file system now holds (idempotent, no re-read, no new
Finding). -/
theorem c6_registry_load_contract :
    (∀ (fs : FS) (s : Session), s.entitiesCache = none → fs.entityRegistry = none →
        loadEntityRegistry fs s = ([], addError s entityRegistryNotFoundMsg)) ∧
    (∀ (fs : FS) (s : Session) (e : String), s.entitiesCache = none →
        fs.entityRegistry = some (Except.error e) →
        loadEntityRegistry fs s = ([], addError s (entityRegistryLoadFailMsg e))) ∧
    (∀ (fs : FS) (s : Session), s.devicesCache = none → fs.deviceRegistry = none →
        loadDeviceRegistry fs s = ([], addError s deviceRegistryNotFoundMsg)) ∧
    (∀ (fs : FS) (s : Session) (e : String), s.devicesCache = none →
        fs.deviceRegistry = some (Except.error e) →
        loadDeviceRegistry fs s = ([], addError s (deviceRegistryLoadFailMsg e))) ∧
    (∀ (fs : FS) (s : Session), s.areasCache = none → fs.areaRegistry = none →
        loadAreaRegistry fs s = ([], addWarning s areaRegistryNotFoundMsg)) ∧
    (∀ (fs : FS) (s : Session) (e : String), s.areasCache = none →
        fs.areaRegistry = some (Except.error e) →
        loadAreaRegistry fs s = ([], addWarning s (areaRegistryLoadFailMsg e))) ∧
    (∀ (fs : FS) (s : Session) (recs : List EntityRecord), s.entitiesCache = none →
        fs.entityRegistry = some (Except.ok recs) →
        loadEntityRegistry fs s =
          (buildEntityDict recs,
           { s with entitiesCache := some (buildEntityDict recs) })) ∧
    (∀ (fs : FS) (s : Session) (recs : List DeviceRecord), s.devicesCache = none →
        fs.deviceRegistry = some (Except.ok recs) →
        loadDeviceRegistry fs s =
          (buildDeviceDict recs,
           { s with devicesCache := some (buildDeviceDict recs) })) ∧
    (∀ (fs : FS) (s : Session) (recs : List AreaRecord), s.areasCache = none →
        fs.areaRegistry = some (Except.ok recs) →
        loadAreaRegistry fs s =
          (buildAreaDict recs, { s with areasCache := some (buildAreaDict recs) })) ∧
    (∀ (fs : FS) (s : Session) (d : List (String × EntityRecord)),
        s.entitiesCache = some d → loadEntityRegistry fs s = (d, s)) ∧
    (∀ (fs : FS) (s : Session) (d : List (String × DeviceRecord)),
        s.devicesCache = some d → loadDeviceRegistry fs s = (d, s)) ∧
    (∀ (fs : FS) (s : Session) (d : List (String × AreaRecord)),
        s.areasCache = some d → loadAreaRegistry fs s = (d, s)) := by
  refine ⟨?_, ?_, ?_, ?_, ?_, ?_, ?_, ?_, ?_, ?_, ?_, ?_⟩
  · intro fs s h1 h2; simp [loadEntityRegistry, h1, h2]
  · intro fs s e h1 h2; simp [loadEntityRegistry, h1, h2]
  · intro fs s h1 h2; simp [loadDeviceRegistry, h1, h2]
  · intro fs s e h1 h2; simp [loadDeviceRegistry, h1, h2]
  · intro fs s h1 h2; simp [loadAreaRegistry, h1, h2]
  · intro fs s e h1 h2; simp [loadAreaRegistry, h1, h2]
  · intro fs s recs h1 h2; simp [loadEntityRegistry, h1, h2]
  · intro fs s recs h1 h2; simp [loadDeviceRegistry, h1, h2]
  · intro fs s recs h1 h2; simp [loadAreaRegistry, h1, h2]
  · intro fs s d h1; simp [loadEntityRegistry, h1]
  · intro fs s d h1; simp [loadDeviceRegistry, h1]
  · intro fs s d h1; simp [loadAreaRegistry, h1]

/-! ## C1 — disabled-entity references produce no Finding (code bug)

The `disabled_entities` dict in `validate_file_references` is built from
`entities.values()`, so its keys are a subset of the keys of `entities`;
the branch that consults it is guarded by `entity_id not in entities`,
making the "references disabled entity" warning unreachable.  A
reference to a registered-but-disabled entity is simply skipped. -/

/-- C1's failing input, registry side: `light.living_room` with
`disabled_by = "user"`. -/
def c1Registry : List EntityRecord :=
  [⟨"light.living_room", none, some "hue", some "user", none⟩]

def c1FS : FS :=
  { entityRegistry := some (Except.ok c1Registry)
    deviceRegistry := some (Except.ok [])
    areaRegistry := some (Except.ok [])
    scriptsFile := none
    scenesFile := none
    blueprintFiles := []
    configFiles := []
    configDirExists := true
    builtinServiceDomains := defaultBuiltinServiceDomains }

/-- C1's failing input, file side: an automation referencing the
disabled entity. -/
def c1Data : Yaml :=
  yseq [ymap [("trigger", ymap [("entity_id", Yaml.str "light.living_room")])]]

/-- C1 (evaluation at the failing input): validating a file that
references an entity present in the registry with non-null
`disabled_by` yields NO finding at all — not the one disabled-entity
warning the spec requires — and reports the file as valid. -/
theorem c1_disabled_entity_reference_yields_no_finding :
    (validateFileReferences c1FS "automations.yaml" (Except.ok c1Data) initSession).1
        = true ∧
    (validateFileReferences c1FS "automations.yaml" (Except.ok c1Data)
        initSession).2.errors = [] ∧
    (validateFileReferences c1FS "automations.yaml" (Except.ok c1Data)
        initSession).2.warnings = [] :=
  ⟨by decide, by decide, by decide⟩

/-! ## C3 — builtin service domains are NOT accepted unconditionally
(code bug)

Inside the builtin-domain branch, `validate_service_calls` cross-checks
`script.*` and `scene.*` actions against `scripts.yaml`/`scenes.yaml`
and emits a warning Finding for unknown actions — contradicting both
the spec's "no deeper check" policy and the repository's own test
`test_script_domain_is_builtin`, which asserts zero warnings for
`script.any_script`. -/

def c3FS : FS :=
  { entityRegistry := some (Except.ok [])
    deviceRegistry := some (Except.ok [])
    areaRegistry := some (Except.ok [])
    scriptsFile := none
    scenesFile := none
    blueprintFiles := []
    configFiles := []
    configDirExists := true
    builtinServiceDomains := defaultBuiltinServiceDomains }

/-- C3 (evaluation at the failing input): with no `scripts.yaml`, the
builtin-domain service call `script.any_script` produces a warning
Finding, so acceptance is not unconditional.  (`script.reload` shows the
carve-out for the three built-in actions.) -/
theorem c3_builtin_script_domain_service_can_produce_finding :
    (validateServiceCalls c3FS ["script.any_script"] "test.yaml"
        initSession).2.warnings = [scriptNotFoundMsg "test.yaml" "any_script"] ∧
    (validateServiceCalls c3FS ["script.any_script"] "test.yaml"
        initSession).2.errors = [] ∧
    defaultBuiltinServiceDomains.contains "script" = true ∧
    (validateServiceCalls c3FS ["script.reload"] "test.yaml"
        initSession).2.warnings = [] :=
  ⟨by decide, by decide, by decide, by decide⟩

/-! ## C9 — device/area extraction filters only on the `!` prefix -/

theorem mem_bangFilteredCandidates :
    ∀ (xs : YSeq) (acc : List String) (v : String),
      v ∈ bangFilteredCandidates acc xs → v ∈ acc ∨ pyStartsWith v "!" = false
  | YSeq.nil, _, _, hv => Or.inl hv
  | YSeq.cons x rest, acc, v, hv => by
      cases x with
      | str es =>
          have hv' : v ∈ bangFilteredCandidates
              (if pyStartsWith es "!" then acc else setAdd acc es) rest := hv
          rcases mem_bangFilteredCandidates rest _ v hv' with hacc | hval
          · by_cases hb : pyStartsWith es "!" = true
            · rw [if_pos hb] at hacc
              exact Or.inl hacc
            · rw [if_neg hb] at hacc
              rcases mem_setAdd.mp hacc with h | rfl
              · exact Or.inl h
              · exact Or.inr (Bool.not_eq_true _ ▸ hb)
          · exact Or.inr hval
      | map kvs => exact mem_bangFilteredCandidates rest acc v hv
      | seq ys => exact mem_bangFilteredCandidates rest acc v hv
      | null => exact mem_bangFilteredCandidates rest acc v hv
      | other => exact mem_bangFilteredCandidates rest acc v hv

mutual

theorem extractDeviceRefs_no_bang :
    ∀ (y : Yaml) (v : String), v ∈ extractDeviceRefs y → pyStartsWith v "!" = false
  | Yaml.map kvs, v, hv => deviceRefsDict_no_bang kvs v hv
  | Yaml.seq xs, v, hv => deviceRefsSeq_no_bang xs v hv

theorem deviceRefsDict_no_bang :
    ∀ (d : YDict) (v : String), v ∈ deviceRefsDict d → pyStartsWith v "!" = false
  | YDict.cons k val rest, v, hv => by
      rcases mem_setUnion.mp hv with hcon | hrest
      · by_cases hk : (k == "device_id" || k == "device_ids") = true
        · rw [if_pos hk] at hcon
          cases val with
          | str sv =>
              have hcon' : v ∈ (if pyStartsWith sv "!" then [] else [sv]) := hcon
              by_cases hb : pyStartsWith sv "!" = true
              · rw [if_pos hb] at hcon'
                exact absurd hcon' (List.not_mem_nil v)
              · rw [if_neg hb] at hcon'
                rw [List.mem_singleton] at hcon'
                exact hcon' ▸ (Bool.not_eq_true _ ▸ hb)
          | seq xs =>
              have hcon' : v ∈ bangFilteredCandidates [] xs := hcon
              rcases mem_bangFilteredCandidates xs [] v hcon' with h | h
              · exact absurd h (List.not_mem_nil v)
              · exact h
          | map kvs => exact absurd hcon (List.not_mem_nil v)
          | null => exact absurd hcon (List.not_mem_nil v)
          | other => exact absurd hcon (List.not_mem_nil v)
        · rw [if_neg hk] at hcon
          exact extractDeviceRefs_no_bang val v hcon
      · exact deviceRefsDict_no_bang rest v hrest

theorem deviceRefsSeq_no_bang :
    ∀ (xs : YSeq) (v : String), v ∈ deviceRefsSeq xs → pyStartsWith v "!" = false
  | YSeq.cons x rest, v, hv => by
      rcases mem_setUnion.mp hv with hx | hrest
      · exact extractDeviceRefs_no_bang x v hx
      · exact deviceRefsSeq_no_bang rest v hrest

end

mutual

theorem extractAreaRefs_no_bang :
    ∀ (y : Yaml) (v : String), v ∈ extractAreaRefs y → pyStartsWith v "!" = false
  | Yaml.map kvs, v, hv => areaRefsDict_no_bang kvs v hv
  | Yaml.seq xs, v, hv => areaRefsSeq_no_bang xs v hv

theorem areaRefsDict_no_bang :
    ∀ (d : YDict) (v : String), v ∈ areaRefsDict d → pyStartsWith v "!" = false
  | YDict.cons k val rest, v, hv => by
      rcases mem_setUnion.mp hv with hcon | hrest
      · by_cases hk : (k == "area_id" || k == "area_ids") = true
        · rw [if_pos hk] at hcon
          cases val with
          | str sv =>
              have hcon' : v ∈ (if pyStartsWith sv "!" then [] else [sv]) := hcon
              by_cases hb : pyStartsWith sv "!" = true
              · rw [if_pos hb] at hcon'
                exact absurd hcon' (List.not_mem_nil v)
              · rw [if_neg hb] at hcon'
                rw [List.mem_singleton] at hcon'
                exact hcon' ▸ (Bool.not_eq_true _ ▸ hb)
          | seq xs =>
              have hcon' : v ∈ bangFilteredCandidates [] xs := hcon
              rcases mem_bangFilteredCandidates xs [] v hcon' with h | h
              · exact absurd h (List.not_mem_nil v)
              · exact h
          | map kvs => exact absurd hcon (List.not_mem_nil v)
          | null => exact absurd hcon (List.not_mem_nil v)
          | other => exact absurd hcon (List.not_mem_nil v)
        · rw [if_neg hk] at hcon
          exact extractAreaRefs_no_bang val v hcon
      · exact areaRefsDict_no_bang rest v hrest

theorem areaRefsSeq_no_bang :
    ∀ (xs : YSeq) (v : String), v ∈ areaRefsSeq xs → pyStartsWith v "!" = false
  | YSeq.cons x rest, v, hv => by
      rcases mem_setUnion.mp hv with hx | hrest
      · exact extractAreaRefs_no_bang x v hx
      · exact areaRefsSeq_no_bang rest v hrest

end

/-- C9: the device and area walks exclude a collected string only for a
leading `!`: every collected candidate lacks the `!` prefix, and every
other string — 32-hex opaque ids, double-brace expressions, the
reserved keywords — placed under a `device_id`/`area_id` key is
collected; entity extraction, by contrast, also drops every candidate
matched by `should_skip_entity_validation`. -/
theorem c9_device_area_extraction_filters_only_bang :
    (∀ (y : Yaml) (v : String), v ∈ extractDeviceRefs y →
        pyStartsWith v "!" = false) ∧
    (∀ v : String, pyStartsWith v "!" = false →
        extractDeviceRefs (ymap [("device_id", Yaml.str v)]) = [v]) ∧
    (∀ (y : Yaml) (v : String), v ∈ extractAreaRefs y →
        pyStartsWith v "!" = false) ∧
    (∀ v : String, pyStartsWith v "!" = false →
        extractAreaRefs (ymap [("area_id", Yaml.str v)]) = [v]) ∧
    (∀ v : String, shouldSkipEntityValidation v = true →
        extractEntityRefs (ymap [("entity_id", Yaml.str v)]) = []) := by
  refine ⟨extractDeviceRefs_no_bang, ?_, extractAreaRefs_no_bang, ?_, ?_⟩
  · intro v h
    have e : extractDeviceRefs (ymap [("device_id", Yaml.str v)]) =
        (if pyStartsWith v "!" = true then [] else [v]) := rfl
    rw [e, if_neg]
    simp [h]
  · intro v h
    have e : extractAreaRefs (ymap [("area_id", Yaml.str v)]) =
        (if pyStartsWith v "!" = true then [] else [v]) := rfl
    rw [e, if_neg]
    simp [h]
  · intro v h
    have e : extractEntityRefs (ymap [("entity_id", Yaml.str v)]) =
        (if shouldSkipEntityValidation v = true then [] else [v]) := rfl
    rw [e, if_pos h]

/-! ## C5 — the expression scanner's per-token filter -/

theorem splitOnCharL_ne_nil (sep : Char) : ∀ l : List Char, splitOnCharL sep l ≠ []
  | [] => by simp [splitOnCharL]
  | c :: cs => by
      rw [splitOnCharL]
      split
      · simp
      · cases h : splitOnCharL sep cs with
        | nil => exact absurd h (splitOnCharL_ne_nil sep cs)
        | cons hd tl => simp

theorem splitOnCharL_length (sep : Char) :
    ∀ l : List Char, (splitOnCharL sep l).length = l.count sep + 1
  | [] => by simp [splitOnCharL]
  | c :: cs => by
      rw [splitOnCharL]
      split
      · next h =>
          simp only [List.length_cons, splitOnCharL_length sep cs, List.count_cons, h]
          simp
      · next h =>
          have h' : (c == sep) = false := Bool.not_eq_true _ ▸ h
          cases hs : splitOnCharL sep cs with
          | nil => exact absurd hs (splitOnCharL_ne_nil sep cs)
          | cons hd tl =>
              have hlen := splitOnCharL_length sep cs
              rw [hs] at hlen
              have hc : List.count sep (c :: cs) = List.count sep cs := by
                simp [List.count_cons, h']
              simp only [List.length_cons] at hlen ⊢
              rw [hc]
              omega

/-- The filter of `extract_entities_from_template` passes exactly the
tokens with one separator (their segments may be empty). -/
theorem entityTokenFilter_count {m : List Char} (h : entityTokenFilter m = true) :
    m.count '.' = 1 := by
  unfold entityTokenFilter at h
  rcases Bool.and_eq_true_iff.mp h with ⟨_, h2⟩
  have := splitOnCharL_length '.' m
  rw [Nat.beq_eq_true_eq] at h2
  omega

/-- The invariant accumulated by `extract_entities_from_template`:
a duplicate-free set whose every member has exactly one separator. -/
def ScannerInv (l : List String) : Prop :=
  l.Nodup ∧ ∀ tok ∈ l, tok.toList.count '.' = 1

theorem scannerInv_inner :
    ∀ (caps : List (List Char)) (acc : List String), ScannerInv acc →
      ScannerInv (caps.foldl
        (fun acc cap =>
          if entityTokenFilter cap then setAdd acc (String.mk cap) else acc) acc) := by
  intro caps
  induction caps with
  | nil => exact fun acc h => h
  | cons cap rest ih =>
      intro acc hacc
      refine ih _ ?_
      show ScannerInv
        (if entityTokenFilter cap = true then setAdd acc (String.mk cap) else acc)
      by_cases hf : entityTokenFilter cap = true
      · rw [if_pos hf]
        refine ⟨nodup_setAdd hacc.1, ?_⟩
        intro tok htok
        rcases mem_setAdd.mp htok with h | rfl
        · exact hacc.2 tok h
        · exact entityTokenFilter_count hf
      · rwa [if_neg hf]

theorem scannerInv_outer :
    ∀ (ms : List (List Char → Option (List Char × List Char)))
      (n : Nat) (cl : List Char) (acc : List String), ScannerInv acc →
      ScannerInv (ms.foldl
        (fun acc m =>
          (scanAll m n cl).foldl
            (fun acc cap =>
              if entityTokenFilter cap then setAdd acc (String.mk cap) else acc)
            acc) acc) := by
  intro ms
  induction ms with
  | nil => exact fun n cl acc h => h
  | cons m rest ih =>
      intro n cl acc hacc
      exact ih n cl _ (scannerInv_inner _ _ hacc)

/-- C5 (amended): every token the expression scanner returns contains
exactly one separator — its segments may be empty — and the returned
set is duplicate-free. -/
theorem c5_amended_scanner_tokens_have_one_separator (template : String) :
    (∀ tok ∈ extractEntitiesFromTemplate template, tok.toList.count '.' = 1) ∧
    (extractEntitiesFromTemplate template).Nodup := by
  have h := scannerInv_outer entityPatternMatchers template.toList.length
    template.toList [] ⟨List.nodup_nil, by intro tok h; cases h⟩
  exact ⟨h.2, h.1⟩

/-- C5's counterexample input: the template `states('a.')`. -/
def c5Template : String := "states(" ++ sqStr ++ "a." ++ sqStr ++ ")"

/-- C5 (counterexample): the scanner returns the token `"a."`, whose
object segment (after the single separator) is empty — refuting the
claim that tokens with an empty segment are never returned. -/
theorem c5_counterexample_empty_segment_token_returned :
    extractEntitiesFromTemplate c5Template = ["a."] ∧
    splitOnCharL '.' "a.".toList = [['a'], []] :=
  ⟨by decide, by decide⟩

/-! ## C4 — `should_skip_entity_validation` versus the claim's wording -/

theorem hasCloseNoNewline_iff :
    ∀ l : List Char, hasCloseNoNewline l = true ↔
      ∃ b c, l = b ++ [rbraceChar, rbraceChar] ++ c ∧ nlChar ∉ b
  | [] => by
      constructor
      · intro h
        rw [hasCloseNoNewline] at h
        cases h
      · rintro ⟨b, c, he, -⟩
        exact absurd he (by simp)
  | ch :: rest => by
      rw [hasCloseNoNewline]
      by_cases h1 : (ch == nlChar) = true
      · rw [if_pos h1]
        have hch : ch = nlChar := eq_of_beq h1
        constructor
        · intro h
          cases h
        · rintro ⟨b, c, he, hb⟩
          cases b with
          | nil =>
              simp only [List.nil_append, List.cons_append] at he
              injection he with he1 _
              rw [hch] at he1
              exact absurd he1 (by decide)
          | cons x b' =>
              simp only [List.cons_append] at he
              injection he with he1 _
              exact (hb (by rw [← he1, hch]; exact List.mem_cons_self _ _)).elim
      · rw [if_neg h1]
        have hch : ch ≠ nlChar := fun e => h1 (by rw [e]; exact beq_self_eq_true _)
        by_cases h2 : (ch == rbraceChar && rest.head? == some rbraceChar) = true
        · rw [if_pos h2]
          rcases Bool.and_eq_true_iff.mp h2 with ⟨h2a, h2b⟩
          have hcr : ch = rbraceChar := eq_of_beq h2a
          have hh : rest.head? = some rbraceChar := eq_of_beq h2b
          cases rest with
          | nil => cases hh
          | cons r rest' =>
              have hr : r = rbraceChar := by injection hh
              constructor
              · intro _
                exact ⟨[], rest', by rw [hcr, hr]; rfl, by simp⟩
              · intro _
                rfl
        · rw [if_neg h2]
          rw [hasCloseNoNewline_iff rest]
          constructor
          · rintro ⟨b, c, he, hb⟩
            refine ⟨ch :: b, c, by simp [he, List.append_assoc], ?_⟩
            intro hm
            rcases List.mem_cons.mp hm with e | hmb
            · exact hch e.symm
            · exact hb hmb
          · rintro ⟨b, c, he, hb⟩
            cases b with
            | nil =>
                simp only [List.nil_append, List.cons_append] at he
                injection he with he1 he2
                exfalso
                apply h2
                rw [Bool.and_eq_true_iff]
                refine ⟨by rw [he1]; exact beq_self_eq_true _, ?_⟩
                rw [he2]
                rfl
            | cons x b' =>
                simp only [List.cons_append] at he
                injection he with he1 he2
                refine ⟨b', c, ?_, fun hm => hb (List.mem_cons_of_mem _ hm)⟩
                simpa [List.append_assoc] using he2

theorem isTemplate_scan_iff :
    ∀ l : List Char, isTemplate.scan l = true ↔
      ∃ a b c, l = a ++ [lbraceChar, lbraceChar] ++ b ++ [rbraceChar, rbraceChar] ++ c ∧
        nlChar ∉ b
  | [] => by
      constructor
      · intro h
        rw [isTemplate.scan] at h
        cases h
      · rintro ⟨a, b, c, he, -⟩
        exact absurd he (by simp)
  | ch :: rest => by
      rw [isTemplate.scan]
      by_cases h1 : (ch == lbraceChar && rest.head? == some lbraceChar) = true
      · rw [if_pos h1]
        rcases Bool.and_eq_true_iff.mp h1 with ⟨h1a, h1b⟩
        have hcl : ch = lbraceChar := eq_of_beq h1a
        cases rest with
        | nil => cases eq_of_beq h1b
        | cons r rest' =>
            have hr : r = lbraceChar := by
              have h' := eq_of_beq h1b
              injection h'
            simp only [List.tail_cons]
            rw [Bool.or_eq_true, hasCloseNoNewline_iff rest',
              isTemplate_scan_iff (r :: rest')]
            constructor
            · rintro (⟨b, c, he, hb⟩ | ⟨a, b, c, he, hb⟩)
              · exact ⟨[], b, c, by simp [hcl, hr, he, List.append_assoc], hb⟩
              · exact ⟨ch :: a, b, c, by simp [he, List.append_assoc], hb⟩
            · rintro ⟨a, b, c, he, hb⟩
              cases a with
              | nil =>
                  simp only [List.nil_append, List.cons_append] at he
                  left
                  injection he with _ he2
                  injection he2 with _ he3
                  exact ⟨b, c, by simpa [List.append_assoc] using he3, hb⟩
              | cons x a' =>
                  right
                  simp only [List.cons_append] at he
                  injection he with _ he2
                  exact ⟨a', b, c, by simpa [List.append_assoc] using he2, hb⟩
      · rw [if_neg h1]
        rw [isTemplate_scan_iff rest]
        constructor
        · rintro ⟨a, b, c, he, hb⟩
          exact ⟨ch :: a, b, c, by simp [he, List.append_assoc], hb⟩
        · rintro ⟨a, b, c, he, hb⟩
          cases a with
          | nil =>
              simp only [List.nil_append, List.cons_append] at he
              injection he with he1 he2
              exfalso
              apply h1
              rw [Bool.and_eq_true_iff]
              refine ⟨by rw [he1]; exact beq_self_eq_true _, ?_⟩
              rw [he2]
              rfl
          | cons x a' =>
              simp only [List.cons_append] at he
              injection he with _ he2
              exact ⟨a', b, c, by simpa [List.append_assoc] using he2, hb⟩

theorem hexRunDollar_iff :
    ∀ (n : Nat) (l : List Char), hexRunDollar n l = true ↔
      ∃ h : List Char, h.length = n ∧ (∀ c ∈ h, isLowerHex c = true) ∧
        (l = h ∨ l = h ++ [nlChar])
  | 0, l => by
      rw [hexRunDollar]
      rw [Bool.or_eq_true]
      constructor
      · rintro (h | h)
        · have hl : l = [] := by
            cases l
            · rfl
            · cases h
          exact ⟨[], rfl, by simp, Or.inl hl⟩
        · exact ⟨[], rfl, by simp, Or.inr (eq_of_beq h)⟩
      · rintro ⟨h, hlen, -, he⟩
        rw [List.length_eq_zero] at hlen
        subst hlen
        rcases he with rfl | rfl
        · left; rfl
        · right; rfl
  | n + 1, [] => by
      rw [hexRunDollar]
      constructor
      · intro h
        cases h
      · rintro ⟨h, hlen, -, he⟩
        rcases he with he | he
        · rw [← he] at hlen
          simp at hlen
        · have hlen2 := congrArg List.length he
          simp at hlen2
  | n + 1, c :: cs => by
      rw [hexRunDollar]
      rw [Bool.and_eq_true_iff, hexRunDollar_iff n cs]
      constructor
      · rintro ⟨hc, h, hlen, hhex, he⟩
        refine ⟨c :: h, by simp [hlen], ?_, ?_⟩
        · intro x hx
          rcases List.mem_cons.mp hx with rfl | hx
          · exact hc
          · exact hhex x hx
        · rcases he with rfl | rfl
          · exact Or.inl rfl
          · exact Or.inr (by rw [List.cons_append])
      · rintro ⟨h, hlen, hhex, he⟩
        cases h with
        | nil => simp at hlen
        | cons x h' =>
            have hx : isLowerHex x = true := hhex x (List.mem_cons_self _ _)
            rcases he with he | he
            · injection he with he1 he2
              subst he1
              exact ⟨hx, h', by simpa using hlen,
                fun y hy => hhex y (List.mem_cons_of_mem _ hy), Or.inl he2⟩
            · rw [List.cons_append] at he
              injection he with he1 he2
              subst he1
              exact ⟨hx, h', by simpa using hlen,
                fun y hy => hhex y (List.mem_cons_of_mem _ hy), Or.inr he2⟩

/-- The skip predicate exactly as C4 words it, independent of the
implementation: leading `!`, or a 32-character lowercase-hex string, or
some occurrence of the opening double brace followed by the closing
double brace, or a reserved keyword. -/
def claimSkipPredicate (s : String) : Prop :=
  pyStartsWith s "!" = true ∨
  (s.toList.length = 32 ∧ ∀ c ∈ s.toList, isLowerHex c = true) ∨
  (∃ a b c : List Char,
      s.toList = a ++ [lbraceChar, lbraceChar] ++ b ++ [rbraceChar, rbraceChar] ++ c) ∨
  s = "all" ∨ s = "none"

/-- C4's counterexample input: `\x7b\x7b`, newline, `\x7d\x7d`. -/
def c4Tmpl : String :=
  String.mk [lbraceChar, lbraceChar, nlChar, rbraceChar, rbraceChar]

/-- C4 (counterexample): a string containing both double-brace
delimiters, with a newline between them, satisfies the claim's skip
condition but `should_skip_entity_validation` returns `false` (the
regex's `.` does not cross newlines). -/
theorem c4_counterexample_brace_pair_not_skipped :
    claimSkipPredicate c4Tmpl ∧ shouldSkipEntityValidation c4Tmpl = false :=
  ⟨Or.inr (Or.inr (Or.inl ⟨[], [nlChar], [], rfl⟩)), by decide⟩

/-- The declarative reading of `should_skip_entity_validation` that
actually matches the implementation: the hex clause also admits one
trailing newline (Python's `$`), and the delimiter pair must have no
newline strictly between the braces (Python's `.`). -/
def amendedSkipSpec (s : String) : Prop :=
  pyStartsWith s "!" = true ∨
  (∃ h : List Char, h.length = 32 ∧ (∀ c ∈ h, isLowerHex c = true) ∧
      (s.toList = h ∨ s.toList = h ++ [nlChar])) ∨
  (∃ a b c : List Char,
      s.toList = a ++ [lbraceChar, lbraceChar] ++ b ++ [rbraceChar, rbraceChar] ++ c ∧
      nlChar ∉ b) ∨
  (s = "all" ∨ s = "none")

/-- C4 (amended): `should_skip_entity_validation s` is true exactly when
`s` starts with `!`, or is 32 lowercase-hex characters optionally
followed by one trailing newline, or contains an opening double brace
later closed by a double brace with no newline between them, or equals
`all`/`none` — a pure function of `s` alone. -/
theorem c4_amended_should_skip_characterisation (s : String) :
    shouldSkipEntityValidation s = true ↔ amendedSkipSpec s := by
  unfold shouldSkipEntityValidation amendedSkipSpec
  rw [Bool.or_eq_true, Bool.or_eq_true, Bool.or_eq_true, or_assoc, or_assoc]
  refine or_congr Iff.rfl (or_congr ?_ (or_congr ?_ ?_))
  · exact hexRunDollar_iff 32 s.toList
  · exact isTemplate_scan_iff s.toList
  · unfold isSpecialKeyword
    rw [Bool.or_eq_true]
    exact or_congr beq_iff_eq beq_iff_eq

/-! ## C2 — blueprint input validation severities -/

/-- The items of a parsed mapping, in order. -/
def ydictPairs : YDict → List (String × Yaml)
  | .nil => []
  | .cons k v rest => (k, v) :: ydictPairs rest

theorem loadBlueprints_preserves_findings (fs : FS) (s : Session) :
    (loadBlueprints fs s).2.errors = s.errors ∧
    (loadBlueprints fs s).2.warnings = s.warnings := by
  unfold loadBlueprints
  cases s.blueprintsCache <;> exact ⟨rfl, rfl⟩

/-- The input-check loop appends exactly one warning per schema input
that is neither supplied nor optional, in schema order, and touches
nothing else in the session. -/
theorem checkBlueprintInputs_spec :
    ∀ (schema : YDict) (file al : String) (declared : Yaml) (s : Session),
      checkBlueprintInputs file al schema declared s =
        { s with warnings := s.warnings ++
            (((ydictPairs schema).filter
              (fun q => !inputsMember declared q.1 && !blueprintInputIsOptional q.2)).map
              (fun q => blueprintInputMsg file al q.1)) }
  | YDict.nil, file, al, declared, s => by
      cases s
      simp [checkBlueprintInputs, ydictPairs]
  | YDict.cons iname icfg rest, file, al, declared, s => by
      rw [checkBlueprintInputs]
      by_cases hc : (!inputsMember declared iname && !blueprintInputIsOptional icfg) = true
      · rw [if_pos hc, checkBlueprintInputs_spec rest]
        cases s
        simp [addWarning, ydictPairs, hc, List.append_assoc]
      · rw [if_neg hc, checkBlueprintInputs_spec rest]
        cases s
        have hc' : (!inputsMember declared iname && !blueprintInputIsOptional icfg)
            = false := Bool.not_eq_true _ ▸ hc
        simp [ydictPairs, hc']

/-- C2 (amended): when a blueprint automation resolves to a local
blueprint schema, `validate_blueprint_automation` returns `true`,
appends no error, and appends exactly one *warning* for each schema
input that has no default and is not supplied; missing inputs with a
default produce no Finding, and declared inputs absent from the schema
produce no Finding (there is no unknown-input check). -/
theorem c2_amended_blueprint_input_validation (fs : FS)
    (automation ub : YDict) (declared : Yaml) (file : String) (index : Nat)
    (s : Session) (p : String) (bp : Yaml)
    (hub : ydictLookup automation "use_blueprint" = some (Yaml.map ub))
    (hp : ydictLookup ub "path" = some (Yaml.str p))
    (hpne : (p == "") = false)
    (hbang : pyStartsWith p "!" = false)
    (hin : ydictLookup ub "input" = some declared)
    (hfind : findMatchingBlueprint (loadBlueprints fs s).1 p = some bp) :
    validateBlueprintAutomation fs automation file index s =
      (true,
       { (loadBlueprints fs s).2 with warnings := s.warnings ++
          (((ydictPairs (getBlueprintInputs bp)).filter
            (fun q => !inputsMember declared q.1 && !blueprintInputIsOptional q.2)).map
            (fun q => blueprintInputMsg file (blueprintAlias automation index) q.1)) }) ∧
    (loadBlueprints fs s).2.errors = s.errors := by
  refine ⟨?_, (loadBlueprints_preserves_findings fs s).1⟩
  unfold validateBlueprintAutomation
  simp only [hub, hp, hin, hfind, hpne, hbang, Bool.or_self, Bool.false_eq_true,
    if_false, checkBlueprintInputs_spec, (loadBlueprints_preserves_findings fs s).2]

/-! ### C2's counterexample scenario -/

/-- A blueprint whose schema declares two required inputs `a`, `b`. -/
def c2Blueprint : Yaml :=
  ymap [("blueprint", ymap [("input", ymap [("a", ymap []), ("b", ymap [])])])]

def c2FS : FS :=
  { entityRegistry := some (Except.ok [])
    deviceRegistry := some (Except.ok [])
    areaRegistry := some (Except.ok [])
    scriptsFile := none
    scenesFile := none
    blueprintFiles := [("bp.yaml", Except.ok c2Blueprint)]
    configFiles := []
    configDirExists := true
    builtinServiceDomains := defaultBuiltinServiceDomains }

/-- An automations file supplying only `{a}`. -/
def c2AutoMissingB : Yaml :=
  yseq [ymap [("use_blueprint",
    ymap [("path", Yaml.str "bp.yaml"), ("input", ymap [("a", Yaml.str "x")])])]]

/-- An automations file supplying `{a, b, c}`. -/
def c2AutoWithC : Yaml :=
  yseq [ymap [("use_blueprint",
    ymap [("path", Yaml.str "bp.yaml"),
          ("input", ymap [("a", Yaml.str "x"), ("b", Yaml.str "y"),
                          ("c", Yaml.str "z")])])]]

/-- C2 (counterexample): with required inputs `{a, b}` and declared
inputs `{a}`, validation produces zero errors — not the one error the
claim requires — and one warning naming `b`; with declared inputs
`{a, b, c}`, it produces zero errors and zero warnings — not the one
"unknown input" warning about `c` the claim requires. -/
theorem c2_counterexample_missing_required_warns_not_errors :
    (validateFileReferences c2FS "automations.yaml" (Except.ok c2AutoMissingB)
        initSession).2.errors = [] ∧
    (validateFileReferences c2FS "automations.yaml" (Except.ok c2AutoMissingB)
        initSession).2.warnings
      = [blueprintInputMsg "automations.yaml" "Automation 0" "b"] ∧
    (validateFileReferences c2FS "automations.yaml" (Except.ok c2AutoWithC)
        initSession).2.errors = [] ∧
    (validateFileReferences c2FS "automations.yaml" (Except.ok c2AutoWithC)
        initSession).2.warnings = [] :=
  ⟨by decide, by decide, by decide, by decide⟩

/-- C2's amended theorem at a concrete input (discharging every
hypothesis): the scenario of `c2AutoMissingB`'s only automation. -/
theorem c2_amended_blueprint_input_validation_witness :
    validateBlueprintAutomation c2FS
        (YDict.ofList [("use_blueprint",
          ymap [("path", Yaml.str "bp.yaml"),
                ("input", ymap [("a", Yaml.str "x")])])]) "automations.yaml" 0
        initSession =
      (true,
       { (loadBlueprints c2FS initSession).2 with warnings := [] ++
          (((ydictPairs (getBlueprintInputs c2Blueprint)).filter
            (fun q => !inputsMember (ymap [("a", Yaml.str "x")]) q.1 &&
              !blueprintInputIsOptional q.2)).map
            (fun q => blueprintInputMsg "automations.yaml"
              (blueprintAlias (YDict.ofList [("use_blueprint",
                ymap [("path", Yaml.str "bp.yaml"),
                      ("input", ymap [("a", Yaml.str "x")])])]) 0) q.1)) }) ∧
    (loadBlueprints c2FS initSession).2.errors = [] :=
  c2_amended_blueprint_input_validation c2FS _ _ (ymap [("a", Yaml.str "x")])
    "automations.yaml" 0 initSession "bp.yaml" c2Blueprint
    rfl rfl (by decide) (by decide) rfl rfl

/-! ## C7 — service-call validation never produces errors -/

theorem loadScripts_state (fs : FS) (s : Session) :
    (loadScripts fs s).2.errors = s.errors ∧
    (loadScripts fs s).2.warnings = s.warnings ∧
    (loadScripts fs s).2.entitiesCache = s.entitiesCache := by
  unfold loadScripts
  cases s.scriptsCache <;> exact ⟨rfl, rfl, rfl⟩

theorem loadScenes_state (fs : FS) (s : Session) :
    (loadScenes fs s).2.errors = s.errors ∧
    (loadScenes fs s).2.warnings = s.warnings ∧
    (loadScenes fs s).2.entitiesCache = s.entitiesCache := by
  unfold loadScenes
  cases s.scenesCache <;> exact ⟨rfl, rfl, rfl⟩

theorem loadEntityRegistry_cached (fs : FS) (s : Session)
    (d : List (String × EntityRecord)) (h : s.entitiesCache = some d) :
    loadEntityRegistry fs s = (d, s) := by
  unfold loadEntityRegistry
  rw [h]

theorem serviceCallStep_errors (builtins scripts scenes doms : List String)
    (file : String) (st : Session) (svc : String) :
    (serviceCallStep builtins scripts scenes doms file st svc).errors = st.errors := by
  unfold serviceCallStep
  cases splitDomainAction svc with
  | none => rfl
  | some p =>
      obtain ⟨dom, act⟩ := p
      dsimp only
      split
      · split
        · split
          · rfl
          · rfl
        · split
          · split
            · rfl
            · rfl
          · rfl
      · split
        · rfl
        · split
          · rfl
          · rfl

theorem foldl_session_errors (step : Session → String → Session)
    (h : ∀ st x, (step st x).errors = st.errors) :
    ∀ (l : List String) (st : Session), (l.foldl step st).errors = st.errors := by
  intro l
  induction l with
  | nil => intro st; rfl
  | cons x rest ih => intro st; rw [List.foldl_cons, ih, h]

theorem loadEntityRegistry_errors_mono (fs : FS) (s : Session) :
    s.errors.length ≤ (loadEntityRegistry fs s).2.errors.length := by
  unfold loadEntityRegistry
  cases s.entitiesCache with
  | some d => exact Nat.le_refl _
  | none =>
      cases fs.entityRegistry with
      | none => simp [addError]
      | some r =>
          cases r with
          | error e => simp [addError]
          | ok recs => exact Nat.le_refl _

theorem loadDeviceRegistry_errors_mono (fs : FS) (s : Session) :
    s.errors.length ≤ (loadDeviceRegistry fs s).2.errors.length := by
  unfold loadDeviceRegistry
  cases s.devicesCache with
  | some d => exact Nat.le_refl _
  | none =>
      cases fs.deviceRegistry with
      | none => simp [addError]
      | some r =>
          cases r with
          | error e => simp [addError]
          | ok recs => exact Nat.le_refl _

theorem loadAreaRegistry_errors (fs : FS) (s : Session) :
    (loadAreaRegistry fs s).2.errors = s.errors := by
  unfold loadAreaRegistry
  cases s.areasCache with
  | some d => rfl
  | none =>
      cases fs.areaRegistry with
      | none => rfl
      | some r =>
          cases r with
          | error e => rfl
          | ok recs => rfl

theorem getEntityRegistryIdMapping_errors_mono (fs : FS) (s : Session) :
    s.errors.length ≤ (getEntityRegistryIdMapping fs s).2.errors.length :=
  loadEntityRegistry_errors_mono fs s

theorem validateServiceCalls_snd (fs : FS) (services : List String)
    (file : String) (s : Session) :
    (validateServiceCalls fs services file s).2 =
      services.foldl
        (serviceCallStep fs.builtinServiceDomains (loadScripts fs s).1
          (loadScenes fs (loadScripts fs s).2).1
          (entityDomainsOf (loadEntityRegistry fs (loadScenes fs (loadScripts fs s).2).2).1)
          file)
        (loadEntityRegistry fs (loadScenes fs (loadScripts fs s).2).2).2 := rfl

theorem validateServiceCalls_errors_mono (fs : FS) (services : List String)
    (file : String) (s : Session) :
    s.errors.length ≤ (validateServiceCalls fs services file s).2.errors.length := by
  rw [validateServiceCalls_snd]
  rw [foldl_session_errors _ (serviceCallStep_errors _ _ _ _ _)]
  have h3 := loadEntityRegistry_errors_mono fs (loadScenes fs (loadScripts fs s).2).2
  rw [(loadScenes_state fs (loadScripts fs s).2).1, (loadScripts_state fs s).1] at h3
  exact h3

theorem validateBlueprintAutomation_errors (fs : FS) (automation : YDict)
    (file : String) (index : Nat) (s : Session) :
    (validateBlueprintAutomation fs automation file index s).2.errors = s.errors := by
  unfold validateBlueprintAutomation
  cases ydictLookup automation "use_blueprint" with
  | none => rfl
  | some ubv =>
      cases ubv with
      | map ub =>
          dsimp only
          split
          · rfl
          · split
            · show (addWarning (loadBlueprints fs s).2 _).errors = s.errors
              exact (loadBlueprints_preserves_findings fs s).1
            · rw [checkBlueprintInputs_spec]
              exact (loadBlueprints_preserves_findings fs s).1
      | str sv => rfl
      | seq xs => rfl
      | null => rfl
      | other => rfl

theorem validateBlueprintsInFile_go_errors (fs : FS) (file : String) :
    ∀ (xs : YSeq) (i : Nat) (s : Session),
      (validateBlueprintsInFile.go fs file xs i s).2.errors = s.errors
  | YSeq.nil, i, s => rfl
  | YSeq.cons item rest, i, s => by
      cases item with
      | map kvs =>
          rw [validateBlueprintsInFile.go]
          split
          · dsimp only
            rw [validateBlueprintsInFile_go_errors fs file rest (i + 1) _,
              validateBlueprintAutomation_errors]
          · exact validateBlueprintsInFile_go_errors fs file rest (i + 1) s
      | str sv => exact validateBlueprintsInFile_go_errors fs file rest (i + 1) s
      | seq ys => exact validateBlueprintsInFile_go_errors fs file rest (i + 1) s
      | null => exact validateBlueprintsInFile_go_errors fs file rest (i + 1) s
      | other => exact validateBlueprintsInFile_go_errors fs file rest (i + 1) s

theorem validateBlueprintsInFile_errors (fs : FS) (file : String) (data : Yaml)
    (s : Session) :
    (validateBlueprintsInFile fs file data s).2.errors = s.errors := by
  cases data with
  | seq xs => exact validateBlueprintsInFile_go_errors fs file xs 0 s
  | str sv => rfl
  | map kvs => rfl
  | null => rfl
  | other => rfl

theorem foldl_error_growth (step : (Bool × Session) → String → Bool × Session)
    (hmono : ∀ acc x, acc.2.errors.length ≤ (step acc x).2.errors.length)
    (hfalse : ∀ acc x, (step acc x).1 = false →
        acc.1 = false ∨ acc.2.errors.length < (step acc x).2.errors.length) :
    ∀ (l : List String) (init : Bool × Session),
      init.2.errors.length ≤ (l.foldl step init).2.errors.length ∧
      ((l.foldl step init).1 = false →
        init.1 = false ∨ init.2.errors.length < (l.foldl step init).2.errors.length) := by
  intro l
  induction l with
  | nil => exact fun init => ⟨Nat.le_refl _, fun h => Or.inl h⟩
  | cons x rest ih =>
      intro init
      have h1 := ih (step init x)
      refine ⟨Nat.le_trans (hmono init x) h1.1, fun hf => ?_⟩
      rcases h1.2 hf with hfx | hlt
      · rcases hfalse init x hfx with h | h
        · exact Or.inl h
        · exact Or.inr (Nat.lt_of_lt_of_le h h1.1)
      · exact Or.inr (Nat.lt_of_le_of_lt (hmono init x) hlt)

theorem entityCheckStep_growth (entities : List (String × EntityRecord))
    (fileName : String) (acc : Bool × Session) (eid : String) :
    acc.2.errors.length ≤ (entityCheckStep entities fileName acc eid).2.errors.length ∧
    ((entityCheckStep entities fileName acc eid).1 = false →
      acc.1 = false ∨
        acc.2.errors.length < (entityCheckStep entities fileName acc eid).2.errors.length) := by
  unfold entityCheckStep
  split
  · exact ⟨Nat.le_refl _, fun h => Or.inl h⟩
  · split
    · exact ⟨Nat.le_refl _, fun h => Or.inl h⟩
    · split
      · exact ⟨Nat.le_refl _, fun h => Or.inl h⟩
      · dsimp only
        split
        · exact ⟨Nat.le_refl _, fun h => Or.inl h⟩
        · refine ⟨by simp [addError], fun _ => Or.inr (by simp [addError])⟩

theorem registryIdCheckStep_growth (mapping : List (String × String))
    (entities : List (String × EntityRecord)) (fileName : String)
    (acc : Bool × Session) (rid : String) :
    acc.2.errors.length ≤
      (registryIdCheckStep mapping entities fileName acc rid).2.errors.length ∧
    ((registryIdCheckStep mapping entities fileName acc rid).1 = false →
      acc.1 = false ∨
        acc.2.errors.length <
          (registryIdCheckStep mapping entities fileName acc rid).2.errors.length) := by
  unfold registryIdCheckStep
  cases dictLookup mapping rid with
  | none => refine ⟨by simp [addError], fun _ => Or.inr (by simp [addError])⟩
  | some actual =>
      dsimp only
      cases dictLookup entities actual with
      | none => exact ⟨Nat.le_refl _, fun h => Or.inl h⟩
      | some entityData =>
          dsimp only
          split
          · exact ⟨Nat.le_refl _, fun h => Or.inl h⟩
          · exact ⟨Nat.le_refl _, fun h => Or.inl h⟩

theorem deviceCheckStep_growth (devices : List (String × DeviceRecord))
    (fileName : String) (acc : Bool × Session) (did : String) :
    acc.2.errors.length ≤ (deviceCheckStep devices fileName acc did).2.errors.length ∧
    ((deviceCheckStep devices fileName acc did).1 = false →
      acc.1 = false ∨
        acc.2.errors.length < (deviceCheckStep devices fileName acc did).2.errors.length) := by
  unfold deviceCheckStep
  split
  · exact ⟨Nat.le_refl _, fun h => Or.inl h⟩
  · refine ⟨by simp [addError], fun _ => Or.inr (by simp [addError])⟩

theorem areaCheckStep_errors (areas : List (String × AreaRecord))
    (fileName : String) (st : Session) (aid : String) :
    (areaCheckStep areas fileName st aid).errors = st.errors := by
  unfold areaCheckStep
  split
  · rfl
  · rfl

/-- If a parsed file reports invalid, at least one error was appended. -/
theorem validateParsedFile_false_strict (fs : FS) (fileName : String)
    (d : Yaml) (s : Session)
    (hf : (validateParsedFile fs fileName d s).1 = false) :
    s.errors.length < (validateParsedFile fs fileName d s).2.errors.length := by
  set rEnt := loadEntityRegistry fs s with hrEnt
  set rDev := loadDeviceRegistry fs rEnt.2 with hrDev
  set rArea := loadAreaRegistry fs rDev.2 with hrArea
  set rMap := getEntityRegistryIdMapping fs rArea.2 with hrMap
  set r5 := (extractEntityRefs d).foldl (entityCheckStep rEnt.1 fileName)
    (true, rMap.2) with hr5
  set r6 := (extractRegistryIds d).foldl
    (registryIdCheckStep rMap.1 rEnt.1 fileName) r5 with hr6
  set r7 := (extractDeviceRefs d).foldl (deviceCheckStep rDev.1 fileName) r6 with hr7
  set s8 := (extractAreaRefs d).foldl (areaCheckStep rArea.1 fileName) r7.2 with hs8
  set s9 := (validateServiceCalls fs (extractServiceCalls d) fileName s8).2 with hs9
  set s10 := (if fileName == "automations.yaml" then
      (validateBlueprintsInFile fs fileName d s9).2
    else s9) with hs10
  have hval : validateParsedFile fs fileName d s = (r7.1, s10) := rfl
  rw [hval] at hf ⊢
  have g5 := foldl_error_growth _
    (fun acc x => (entityCheckStep_growth rEnt.1 fileName acc x).1)
    (fun acc x => (entityCheckStep_growth rEnt.1 fileName acc x).2)
    (extractEntityRefs d) (true, rMap.2)
  rw [← hr5] at g5
  have g6 := foldl_error_growth _
    (fun acc x => (registryIdCheckStep_growth rMap.1 rEnt.1 fileName acc x).1)
    (fun acc x => (registryIdCheckStep_growth rMap.1 rEnt.1 fileName acc x).2)
    (extractRegistryIds d) r5
  rw [← hr6] at g6
  have g7 := foldl_error_growth _
    (fun acc x => (deviceCheckStep_growth rDev.1 fileName acc x).1)
    (fun acc x => (deviceCheckStep_growth rDev.1 fileName acc x).2)
    (extractDeviceRefs d) r6
  rw [← hr7] at g7
  have hstrict : rMap.2.errors.length < r7.2.errors.length := by
    rcases g7.2 hf with h6 | h7
    · rcases g6.2 h6 with h5 | h6s
      · rcases g5.2 h5 with h0 | h5s
        · cases h0
        · exact Nat.lt_of_lt_of_le h5s (Nat.le_trans g6.1 g7.1)
      · exact Nat.lt_of_le_of_lt g5.1 (Nat.lt_of_lt_of_le h6s g7.1)
    · exact Nat.lt_of_le_of_lt (Nat.le_trans g5.1 g6.1) h7
  have hinit : s.errors.length ≤ rMap.2.errors.length := by
    have m1 := loadEntityRegistry_errors_mono fs s
    have m2 := loadDeviceRegistry_errors_mono fs rEnt.2
    have m3 := loadAreaRegistry_errors fs rDev.2
    have m4 := getEntityRegistryIdMapping_errors_mono fs rArea.2
    rw [← hrEnt] at m1
    rw [← hrDev] at m2
    rw [← hrArea] at m3
    rw [← hrMap] at m4
    rw [m3] at m4
    omega
  have h8 : s8.errors = r7.2.errors := by
    rw [hs8]
    exact foldl_session_errors _ (areaCheckStep_errors rArea.1 fileName) _ _
  have h9 : s8.errors.length ≤ s9.errors.length := by
    rw [hs9]
    exact validateServiceCalls_errors_mono fs _ fileName s8
  have h10 : s9.errors.length ≤ s10.errors.length := by
    rw [hs10]
    split
    · rw [validateBlueprintsInFile_errors]
    · exact Nat.le_refl _
  have : s10.errors.length = (r7.1, s10).2.errors.length := rfl
  rw [← this]
  rw [h8] at h9
  omega

/-- C7: service-call validation never appends an error Finding (with
the entity registry already loaded, so no registry-load error can fire
inside it) and always reports success; an unknown-domain service —
domain in no builtin set, no dynamic set, and among no loaded entity
domains — appends exactly one warning; and file-level validity stays
`true` whenever validation appended no error. -/
theorem c7_service_validation_never_errors :
    (∀ (fs : FS) (services : List String) (file : String) (s : Session)
        (d : List (String × EntityRecord)), s.entitiesCache = some d →
        (validateServiceCalls fs services file s).1 = true ∧
        (validateServiceCalls fs services file s).2.errors = s.errors) ∧
    (∀ (fs : FS) (file : String) (s : Session)
        (d : List (String × EntityRecord)) (svc dom act : String),
        s.entitiesCache = some d →
        splitDomainAction svc = some (dom, act) →
        fs.builtinServiceDomains.contains dom = false →
        dynamicServiceDomains.contains dom = false →
        (entityDomainsOf d).contains dom = false →
        (validateServiceCalls fs [svc] file s).2.warnings
          = s.warnings ++ [unknownDomainMsg file dom svc]) ∧
    (∀ (fs : FS) (name : String) (parsed : Except String Yaml) (s : Session),
        (validateFileReferences fs name parsed s).2.errors = s.errors →
        (validateFileReferences fs name parsed s).1 = true) := by
  refine ⟨?_, ?_, ?_⟩
  · intro fs services file s d hc
    refine ⟨rfl, ?_⟩
    rw [validateServiceCalls_snd]
    rw [foldl_session_errors _ (serviceCallStep_errors _ _ _ _ _)]
    have hc2 : (loadScenes fs (loadScripts fs s).2).2.entitiesCache = some d := by
      rw [(loadScenes_state fs (loadScripts fs s).2).2.2,
        (loadScripts_state fs s).2.2, hc]
    rw [loadEntityRegistry_cached fs _ d hc2]
    rw [(loadScenes_state fs (loadScripts fs s).2).1, (loadScripts_state fs s).1]
  · intro fs file s d svc dom act hc hsplit hbuiltin hdyn hent
    rw [validateServiceCalls_snd]
    have hc2 : (loadScenes fs (loadScripts fs s).2).2.entitiesCache = some d := by
      rw [(loadScenes_state fs (loadScripts fs s).2).2.2,
        (loadScripts_state fs s).2.2, hc]
    rw [loadEntityRegistry_cached fs _ d hc2]
    show (serviceCallStep fs.builtinServiceDomains (loadScripts fs s).1
        (loadScenes fs (loadScripts fs s).2).1 (entityDomainsOf d) file
        (loadScenes fs (loadScripts fs s).2).2 svc).warnings = _
    unfold serviceCallStep
    rw [hsplit]
    simp only [hbuiltin, hdyn, hent, Bool.false_eq_true, if_false]
    show ((loadScenes fs (loadScripts fs s).2).2.warnings ++ _) = _
    rw [(loadScenes_state fs (loadScripts fs s).2).2.1, (loadScripts_state fs s).2.1]
  · intro fs name parsed s hEq
    unfold validateFileReferences at hEq ⊢
    by_cases hsec : (name == "secrets.yaml") = true
    · rw [if_pos hsec]
    · rw [if_neg hsec] at hEq ⊢
      have key : ∀ d0 : Yaml,
          (validateParsedFile fs name d0 s).2.errors = s.errors →
          (validateParsedFile fs name d0 s).1 = true := by
        intro d0 he0
        by_contra hb
        rw [Bool.not_eq_true] at hb
        have hstrict := validateParsedFile_false_strict fs name d0 s hb
        have hl := congrArg List.length he0
        omega
      cases parsed with
      | error e =>
          exfalso
          have hl := congrArg List.length hEq
          simp [addError] at hl
      | ok y =>
          cases y with
          | null => rfl
          | str sv => exact key (Yaml.str sv) hEq
          | map kvs => exact key (Yaml.map kvs) hEq
          | seq xs => exact key (Yaml.seq xs) hEq
          | other => exact key Yaml.other hEq

/-- The cached entity dictionary of C7's witness session. -/
def c7Entities : List (String × EntityRecord) :=
  [("light.living_room", ⟨"light.living_room", none, some "hue", none, none⟩)]

/-- A session whose entity registry cache is already filled, for C7's
witness. -/
def c7Session : Session :=
  { initSession with entitiesCache := some c7Entities }

/-- C7's unknown-domain scenario at a concrete input (discharging every
hypothesis of the second conjunct): one warning, appended to the
session's warnings. -/
theorem c7_service_validation_never_errors_witness :
    (validateServiceCalls c3FS ["custom_domain.foo"] "test.yaml"
        c7Session).2.warnings
      = [] ++ [unknownDomainMsg "test.yaml" "custom_domain" "custom_domain.foo"] :=
  c7_service_validation_never_errors.2.1 c3FS "test.yaml" c7Session
    c7Entities "custom_domain.foo" "custom_domain" "foo" (by rfl) (by decide)
    (by decide) (by decide) (by decide)

/-! ## C8 — validation is a function of the inputs alone

The embedding iterates the extracted candidate sets in a fixed
(first-insertion) order; CPython's set iteration order is hash-seeded
per process, so the cross-process ordering caveat lives outside this
model.  Within the model the theorem states the substance of the claim:
the outcome of `validate_all` depends only on the file system and on
the session being fresh — no other hidden state influences the ordered
finding lists. -/

/-- A freshly constructed session: no findings, no caches. -/
def FreshSession (s : Session) : Prop :=
  s.errors = [] ∧ s.warnings = [] ∧ s.entitiesCache = none ∧
  s.devicesCache = none ∧ s.areasCache = none ∧ s.scriptsCache = none ∧
  s.scenesCache = none ∧ s.blueprintsCache = none

/-- C8: two independent runs of `validate_all` over the same unchanged
file system, each from a fresh session, return the same verdict and
identical ordered error and warning lists. -/
theorem c8_validate_all_deterministic_across_fresh_sessions (fs : FS)
    (s1 s2 : Session) (h1 : FreshSession s1) (h2 : FreshSession s2) :
    validateAll fs s1 = validateAll fs s2 := by
  obtain ⟨a1, b1, c1, d1, e1, f1, g1, i1⟩ := h1
  obtain ⟨a2, b2, c2, d2, e2, f2, g2, i2⟩ := h2
  have hs : s1 = s2 := by
    cases s1
    cases s2
    simp_all
  rw [hs]

def c8FS : FS :=
  { entityRegistry := some (Except.ok c1Registry)
    deviceRegistry := some (Except.ok [])
    areaRegistry := some (Except.ok [])
    scriptsFile := none
    scenesFile := none
    blueprintFiles := []
    configFiles := [("automations.yaml",
      Except.ok (ymap [("entity_id", Yaml.str "light.kitchen")]))]
    configDirExists := true
    builtinServiceDomains := defaultBuiltinServiceDomains }

/-- A second fresh session, written differently from `initSession`. -/
def c8FreshCopy : Session :=
  ⟨[] ++ [], [], none, none, none, none, none, none⟩

/-- C8's theorem applied at a concrete file system and two concretely
different fresh sessions. -/
theorem c8_validate_all_deterministic_witness :
    validateAll c8FS initSession = validateAll c8FS c8FreshCopy :=
  c8_validate_all_deterministic_across_fresh_sessions c8FS initSession c8FreshCopy
    ⟨rfl, rfl, rfl, rfl, rfl, rfl, rfl, rfl⟩
    ⟨rfl, rfl, rfl, rfl, rfl, rfl, rfl, rfl⟩

end HARefValidator
